import Mathlib

/-!
# The `/bfhl` computation service (`src/server.js`)

A shallow embedding of the request handler of `server.js` and of its numeric
helpers, followed by the properties established about them.

JavaScript numbers are IEEE-754 doubles.  Every number that the integer code of
the service touches is an integer-valued double or `+Infinity`, so the
arithmetic is modelled exactly on `Int`, with the rounding of a sum or of a
product to 53 significant bits (round to nearest, ties to even) made explicit.
-/

namespace Bfhl

/-! ## Values -/

/-- A JavaScript string, as its sequence of UTF-16 code units. -/
abbrev JsString := List Nat

/-- The code units of an ASCII string literal of the source. -/
def lit (s : String) : JsString := s.toList.map Char.toNat

/-- A JavaScript number, as far as the service distinguishes them: a finite
integer-valued double, one of the two infinities, or any other number (a finite
non-integer or NaN), whose value no code path of the service reads. -/
inductive JsNum where
  | int (i : Int)
  | posInf
  | negInf
  | other
deriving DecidableEq, Repr

/-- A JavaScript value that can reach the handler as `req.body`, or leave it as
`data`.  An object is the list of its own enumerable properties in
`Object.keys` order. -/
inductive JsVal where
  | undefined
  | null
  | bool (b : Bool)
  | num (x : JsNum)
  | str (s : JsString)
  | arr (items : List JsVal)
  | obj (props : List (JsString × JsVal))

/-! ## Double-precision rounding of integers -/

/-- The loop behind `ilog2`: halve `v` until it is below 2, counting the steps;
the first argument bounds the number of steps and is never exhausted when it
is at least `v`. -/
def ilog2Loop : Nat → Nat → Nat
  | 0, _ => 0
  | f + 1, v => if v < 2 then 0 else ilog2Loop f (v / 2) + 1

/-- The binary exponent `⌊log₂ v⌋` of a positive natural number (0 for 0). -/
def ilog2 (v : Nat) : Nat := ilog2Loop v v

/-- Round to nearest, ties to even, of a natural number to a significand of 53
bits: the value of the double nearest to `v` when that double is finite. -/
def roundNat (v : Nat) : Nat :=
  if v < 2 ^ 53 then v
  else
    let e := ilog2 v - 52
    let q := v / 2 ^ e
    let r := v % 2 ^ e
    if 2 * r < 2 ^ e ∨ (2 * r = 2 ^ e ∧ q % 2 = 0) then q * 2 ^ e else (q + 1) * 2 ^ e

/-- The double that an exact integer result is rounded to; a magnitude that
rounds to `2 ^ 1024 = (2 ^ 256) ^ 4` or more overflows to an infinity. -/
def toDouble (x : Int) : JsNum :=
  if roundNat x.natAbs < (2 ^ 256) ^ 4 then
    .int (if 0 ≤ x then (roundNat x.natAbs : Int) else -(roundNat x.natAbs : Int))
  else if 0 ≤ x then .posInf else .negInf

/-- JavaScript `a + b`.  Operands in `other` never reach an addition of the
service; the result is left in `other` there. -/
def jsAdd : JsNum → JsNum → JsNum
  | .int x, .int y => toDouble (x + y)
  | .posInf, .int _ => .posInf
  | .int _, .posInf => .posInf
  | .posInf, .posInf => .posInf
  | .negInf, .int _ => .negInf
  | .int _, .negInf => .negInf
  | .negInf, .negInf => .negInf
  | _, _ => .other

/-- JavaScript `x * y` on two integer-valued doubles. -/
def jsMul (x y : Int) : JsNum := toDouble (x * y)

/-- The function `Math.abs`. -/
def jsAbs : JsNum → JsNum
  | .int x => .int |x|
  | .posInf => .posInf
  | .negInf => .posInf
  | .other => .other

/-! ## Numeric helpers of the source -/

/-- The function `isInt(n)`: `Number.isInteger(n) && Number.isFinite(n)`. -/
def isInt : JsVal → Bool
  | .num (.int _) => true
  | _ => false

/-- The loop of `fibonacciSeries`: `k` iterations are left, `a` and `b` are the
loop variables; the values pushed from here on are returned in order. -/
def fibLoop : Nat → JsNum → JsNum → List JsNum
  | 0, _, _ => []
  | k + 1, a, b => a :: fibLoop k b (jsAdd a b)

/-- The function `fibonacciSeries(n)` for an integer `n`: the loop body runs
once for every `i` with `0 ≤ i < n`. -/
def fibonacciSeries (n : Int) : List JsNum :=
  fibLoop n.toNat (.int 0) (.int 1)

/-- The value of `Math.floor(Math.sqrt(n))` for a natural number `n` below
`2 ^ 53`, with `Math.sqrt` correctly rounded.  With `k` the integer square
root, the doubles between `k` and `k + 1` are `2 / s` apart, and the rounded
root reaches `k + 1` exactly when the real root lies above `k + 1 - 1 / s`,
the midpoint between `k + 1` and the double just below it. -/
def floorSqrt (n : Nat) : Nat :=
  let k := Nat.sqrt n
  let s := 2 ^ (53 - ilog2 k)
  if ((k + 1) * s - 1) ^ 2 < n * s ^ 2 then k + 1 else k

/-- The `for` loop of `isPrime`: `i` runs over `i, i + 2, ...` while
`i <= limit`; `false` as soon as `n % i === 0`, `true` when the loop ends. -/
def primeLoop (n : Int) (limit i : Nat) : Bool :=
  if i ≤ limit then
    if n.tmod i = 0 then false else primeLoop n limit (i + 2)
  else true
termination_by limit + 1 - i

/-- The function `isPrime(n)`.  An odd double is below `2 ^ 53`, so the loop
is only reached with `n` in the range of `floorSqrt`, and `i` and `n % i` are
exact there. -/
def isPrime : JsVal → Bool
  | .num (.int n) =>
    if n < 2 then false
    else if n = 2 then true
    else if n.tmod 2 = 0 then false
    else primeLoop n (floorSqrt n.toNat) 3
  | _ => false

/-- The `while` loop of `gcd`. -/
def gcdLoop (x y : Int) : Int :=
  if y = 0 then x else gcdLoop y (x.tmod y)
termination_by y.natAbs
decreasing_by
  rename_i h
  have hmod : (x.tmod y).natAbs = x.natAbs % y.natAbs := by
    cases x <;> cases y <;>
      simp [Int.tmod, Int.natAbs_ofNat, Int.natAbs_neg, Int.natAbs_negSucc] <;> norm_cast
  rw [hmod]
  exact Nat.mod_lt _ (Int.natAbs_pos.mpr h)

/-- The function `gcd(a, b)` on two integers; the remainder of two
integer-valued doubles is exact. -/
def gcd (a b : Int) : Int := gcdLoop |a| |b|

/-- The function `lcm(a, b)` on two integers.  The quotient `a / gcd(a, b)` is
exact, the product is rounded to a double. -/
def lcm (a b : Int) : JsNum :=
  if a = 0 ∨ b = 0 then .int 0 else jsAbs (jsMul (a / gcd a b) b)

/-! ## The `POST /bfhl` handler -/

/-- The JSON object handed to `res.json`; a field is `none` when the property
is missing or `undefined`, which `JSON.stringify` leaves out. -/
structure Envelope where
  is_success : Bool
  official_email : JsString
  data : Option JsVal
  error : Option JsString

/-- A response: the status handed to `res.status` (200 when it is not called)
and the JSON body. -/
structure Response where
  status : Int
  body : Envelope

/-- The constant `OFFICIAL_EMAIL`. -/
def OFFICIAL_EMAIL : JsString := lit "akshay0017.be23@chitkara.edu.in"

/-- The constant `ALLOWED_KEYS`. -/
def ALLOWED_KEYS : List JsString :=
  [lit "fibonacci", lit "prime", lit "lcm", lit "hcf", lit "AI"]

/-- The function `badRequest(res, message)`. -/
def badRequest (message : JsString) : Response :=
  { status := 400,
    body := { is_success := false, official_email := OFFICIAL_EMAIL,
              data := none, error := some message } }

/-- The final `res.json` of the handler, with the default status 200: the
property `data` is left out when the variable `data` is still `undefined`. -/
def sendData (data : JsVal) : Response :=
  { status := 200,
    body := { is_success := true, official_email := OFFICIAL_EMAIL,
              data := (match data with
                | .undefined => none
                | d => some d),
              error := none } }

/-- Property access `body.k` on the own properties of an object. -/
def getProp (props : List (JsString × JsVal)) (k : JsString) : JsVal :=
  match props.find? (fun p => p.1 = k) with
  | some p => p.2
  | none => .undefined

/-- Code units removed by `String.prototype.trim`: the white space and line
terminator characters of ECMAScript. -/
def isWhite (c : Nat) : Bool :=
  c = 0x09 ∨ c = 0x0A ∨ c = 0x0B ∨ c = 0x0C ∨ c = 0x0D ∨ c = 0x20 ∨ c = 0xA0 ∨
  c = 0x1680 ∨ (0x2000 ≤ c ∧ c ≤ 0x200A) ∨ c = 0x2028 ∨ c = 0x2029 ∨ c = 0x202F ∨
  c = 0x205F ∨ c = 0x3000 ∨ c = 0xFEFF

/-- The method `trim()`: a copy without leading and trailing white space. -/
def trim (s : JsString) : JsString :=
  ((s.dropWhile isWhite).reverse.dropWhile isWhite).reverse

/-- The integers of an array that passed `arr.every(isInt)`; `none` when some
element is not an integer. -/
def intItems : List JsVal → Option (List Int)
  | [] => some []
  | .num (.int i) :: rest => (intItems rest).map (fun l => i :: l)
  | _ :: _ => none

/-- One call `lcm(acc, n)` of the `reduce` callback.  The accumulator is the
first element or an earlier result of `lcm`: an integer, or `+Infinity` once a
product has overflowed.  With `acc = Infinity` and `n !== 0` the loop of
`gcd(Infinity, n)` sets `y` to `Infinity % n`, which is NaN, and `y !== 0`
stays true for ever: the call does not return (`none`).  No other accumulator
occurs. -/
def lcmCall (acc : JsNum) (n : Int) : Option JsNum :=
  match acc with
  | .int a => some (lcm a n)
  | .posInf => if n = 0 then some (.int 0) else none
  | _ => none

/-- The call `arr.reduce((acc, n) => lcm(acc, n))` on an array of integers
whose first element is `x`: the accumulator starts as `x` and the callback runs
on the other elements; `none` when a call of `lcm` does not return. -/
def lcmReduce (x : Int) (rest : List Int) : Option JsNum :=
  rest.foldlM lcmCall (.int x)

/-- The call `arr.reduce((acc, n) => gcd(acc, n))` on an array of integers
whose first element is `x`. -/
def gcdReduce (x : Int) (rest : List Int) : Int :=
  rest.foldl gcd x

/-- How far the handler gets on its own: it answers, or it awaits
`getAiAnswer(question)`, or it never returns. -/
inductive Step where
  | reply (r : Response)
  | askAi (question : JsString)
  | hang

/-- The checks that the branches `prime`, `lcm` and `hcf` make on the value
`arr` of the key `name`: the 400 response, or the array together with its
first integer and its other integers. -/
def checkArray (name : String) (arr : JsVal) :
    Except Response (List JsVal × Int × List Int) :=
  match arr with
  | .arr [] => .error (badRequest (lit (name ++ " must be a non-empty array of integers")))
  | .arr (first :: more) =>
    if (first :: more).length > 1000 then
      .error (badRequest (lit (name ++ " must be a non-empty array of integers")))
    else
      match first, intItems more with
      | .num (.int x), some rest => .ok (first :: more, x, rest)
      | _, _ => .error (badRequest (lit (name ++ " must contain only integers")))
  | _ => .error (badRequest (lit (name ++ " must be a non-empty array of integers")))

/-- The body of the `try` block of the handler up to the `await`. -/
def route (body : JsVal) : Step :=
  match body with
  | .obj props =>
    let keys := props.map Prod.fst
    if keys.length ≠ 1 then .reply (badRequest (lit "Exactly one key is required"))
    else
      let key := keys.headD []
      if ¬ key ∈ ALLOWED_KEYS then .reply (badRequest (lit "Invalid key"))
      else if key = lit "fibonacci" then
        match getProp props (lit "fibonacci") with
        | .num (.int n) =>
          if n < 0 ∨ n > 10000 then
            .reply (badRequest (lit "fibonacci must be an integer between 0 and 10000"))
          else .reply (sendData (.arr ((fibonacciSeries n).map JsVal.num)))
        | _ => .reply (badRequest (lit "fibonacci must be an integer between 0 and 10000"))
      else if key = lit "prime" then
        match checkArray "prime" (getProp props (lit "prime")) with
        | .error r => .reply r
        | .ok (items, _, _) => .reply (sendData (.arr (items.filter isPrime)))
      else if key = lit "lcm" then
        match checkArray "lcm" (getProp props (lit "lcm")) with
        | .error r => .reply r
        | .ok (_, x, rest) =>
          match lcmReduce x rest with
          | some v => .reply (sendData (.num v))
          | none => .hang
      else if key = lit "hcf" then
        match checkArray "hcf" (getProp props (lit "hcf")) with
        | .error r => .reply r
        | .ok (_, x, rest) => .reply (sendData (.num (.int (gcdReduce x rest))))
      else if key = lit "AI" then
        match getProp props (lit "AI") with
        | .str question =>
          if (trim question).length = 0 then
            .reply (badRequest (lit "AI must be a non-empty string"))
          else if question.length > 1000 then
            .reply (badRequest (lit "AI question is too long"))
          else .askAi (trim question)
        | _ => .reply (badRequest (lit "AI must be a non-empty string"))
      else .reply (sendData .undefined)
  | _ => .reply (badRequest (lit "Request body must be a JSON object"))

/-- The handler of `POST /bfhl`, given the behaviour of `getAiAnswer`: the
response it sends, or the error it passes to `next`; `none` when it never
returns. -/
def bfhl {ε : Type} (getAiAnswer : JsString → Except ε JsString) (body : JsVal) :
    Option (Except ε Response) :=
  match route body with
  | .reply r => some (.ok r)
  | .askAi question =>
    match getAiAnswer question with
    | .ok answer => some (.ok (sendData (.str answer)))
    | .error err => some (.error err)
  | .hang => none

/-! ## The AI delegate -/

/-- The environment variables that `getAiAnswer` reads; `none` when a variable
is not set. -/
structure AiEnv where
  GEMINI_API_KEY : Option JsString
  GOOGLE_API_KEY : Option JsString
  GEMINI_MODEL : Option JsString

/-- JavaScript `a || b` on two values that are a string or `undefined`: `a`
when it is a non-empty string, `b` otherwise. -/
def jsOr (a b : Option JsString) : Option JsString :=
  match a with
  | some (c :: s) => some (c :: s)
  | _ => b

/-- An `Error` object: its property `status` (`undefined` when never set) and
its message. -/
structure JsError where
  status : JsVal
  message : JsString

/-- The call of `axios.post` made by `getAiAnswer`. -/
structure AiRequest where
  url : JsString
  text : JsString
  key : JsString
  timeout : Nat

/-- The value of `err.response?.data?.error?.message`, by what
`new Error(message || "AI request failed")` makes of it.  Every JSON value, and
`undefined`, falls under exactly one case:
* `falsy`: a falsy value that is not a string: `undefined` (a link of the
  chain is missing), `null`, `false` or `0`;
* `text s`: the string `s`, falsy when empty;
* `converted s`: a truthy value that is not a string (`true`, a number other
  than 0, an array, an object) that `new Error` converts to the string `s`:
  `"42"` for `42`, `"a,b"` for `["a","b"]`, the empty string for `[]`,
  `"[object Object]"` for an object without a property `toString`;
* `unconvertible e`: a truthy value on which the conversion throws a
  `TypeError` with message `e`: an object with an own property `toString`
  (a JSON value is no function), or an array that holds such an object. -/
inductive UpstreamMessage where
  | falsy
  | text (s : JsString)
  | converted (s : JsString)
  | unconvertible (typeError : JsString)

/-- The property `response` of the error of a rejected call: the HTTP status
of the upstream and the value at `data.error.message`. -/
structure UpstreamResponse where
  status : Nat
  message : UpstreamMessage

/-- The outcome of the call of `axios.post`: it resolves, and `text` is the
value of `geminiRes?.data?.candidates?.[0]?.content?.parts?.[0]?.text`
(`undefined` when a link of the chain is missing), or it rejects with an error
whose `response` is set when the upstream answered. -/
inductive Upstream where
  | resolved (text : JsVal)
  | rejected (response : Option UpstreamResponse)

/-- What the `try` block of `getAiAnswer` throws: the error of the rejected
call, an `Error` object made by the block itself, or the `TypeError` of a call
of `trim` on a value that has no such method. -/
inductive Thrown where
  | axios (response : Option UpstreamResponse)
  | error (err : JsError)
  | typeError

/-- The call `content.split(/\s+/)[0]`: the text before the first white space
character. -/
def firstToken (content : JsString) : JsString :=
  content.takeWhile (fun c => !isWhite c)

/-- The class `[\w-]`: the ASCII letters, the ASCII digits, the underscore and
the hyphen. -/
def isWordOrHyphen (c : Nat) : Bool :=
  (0x41 ≤ c ∧ c ≤ 0x5A) ∨ (0x61 ≤ c ∧ c ≤ 0x7A) ∨ (0x30 ≤ c ∧ c ≤ 0x39) ∨ c = 0x5F ∨ c = 0x2D

/-- The call `singleWord.replace(/[^\w-]/g, "")`. -/
def stripNonWord (singleWord : JsString) : JsString :=
  singleWord.filter isWordOrHyphen

/-- The credential check of `getAiAnswer` and the request it prepares: the
error thrown before the `try` block, or the call to make. -/
def aiRequest (env : AiEnv) (question : JsString) : Except JsError AiRequest :=
  match jsOr env.GEMINI_API_KEY env.GOOGLE_API_KEY with
  | some (c :: key) =>
    let model := (jsOr env.GEMINI_MODEL (some (lit "gemini-1.5-flash"))).getD []
    .ok { url := lit "https://generativelanguage.googleapis.com/v1beta/models/" ++ model ++
            lit ":generateContent",
          text := lit "Answer in ONE WORD only.\nQuestion: " ++ question,
          key := c :: key,
          timeout := 12000 }
  | _ =>
    .error { status := .num (.int 500),
             message := lit "GEMINI_API_KEY (or GOOGLE_API_KEY) is not configured" }

/-- The `try` block of `getAiAnswer` after the call: the answer it returns or
what it throws. -/
def tryBlock (outcome : Upstream) : Except Thrown JsString :=
  match outcome with
  | .rejected response => .error (.axios response)
  | .resolved text =>
    let content : Except Thrown JsString :=
      match text with
      | .undefined => .ok []
      | .null => .ok []
      | .str t => .ok (trim t)
      | _ => .error .typeError
    match content with
    | .error thrown => .error thrown
    | .ok content =>
      if content.length = 0 then
        .error (.error { status := .num (.int 502), message := lit "Empty AI response" })
      else .ok (stripNonWord (firstToken content))

/-- The `catch` block of `getAiAnswer`: the error it throws for the value it
caught.  Only an error of the rejected call has a property `response`.  The
block first builds `new Error(message || "AI request failed")` and then sets
the status `err.response?.status || 500`; when the conversion of the message
to a string throws, the block ends there and what it throws is that
`TypeError`, which has no status. -/
def catchBlock (thrown : Thrown) : JsError :=
  let response : Option UpstreamResponse :=
    match thrown with
    | .axios response => response
    | _ => none
  let status : JsVal := .num (.int (match response with
    | some r => if r.status = 0 then 500 else (r.status : Int)
    | none => 500))
  let message : Option UpstreamMessage := response.map (fun r => r.message)
  match message with
  | some (.text (c :: s)) => { message := c :: s, status := status }
  | some (.converted s) => { message := s, status := status }
  | some (.unconvertible typeError) => { message := typeError, status := .undefined }
  | _ => { message := lit "AI request failed", status := status }

/-- The function `getAiAnswer(question)`, given the environment and the
behaviour of the upstream. -/
def getAiAnswer (env : AiEnv) (upstream : AiRequest → Upstream) (question : JsString) :
    Except JsError JsString :=
  match aiRequest env question with
  | .error err => .error err
  | .ok request =>
    match tryBlock (upstream request) with
    | .ok answer => .ok answer
    | .error thrown => .error (catchBlock thrown)

/-! ## The final error handler -/

/-- The error-handling middleware `(err, req, res, next)`. -/
def errorHandler (err : JsError) : Response :=
  { status := (match err.status with
      | .num (.int s) => if s = 0 then 500 else s
      | _ => 500),
    body := { is_success := false, official_email := OFFICIAL_EMAIL, data := none,
              error := jsOr (some err.message) (some (lit "Internal Server Error")) } }

/-- The service on `POST /bfhl`: the handler, and the error handler on what the
handler passes to `next`; `none` when the handler never returns. -/
def serve (env : AiEnv) (upstream : AiRequest → Upstream) (body : JsVal) : Option Response :=
  match bfhl (getAiAnswer env upstream) body with
  | some (.ok r) => some r
  | some (.error err) => some (errorHandler err)
  | none => none

/-- The loop of `gcd` with a count of the tests of its condition that are
allowed: `none` when the count runs out before the loop ends. -/
def gcdSteps : Nat → Int → Int → Option Int
  | 0, _, _ => none
  | f + 1, x, y => if y = 0 then some x else gcdSteps f y (x.tmod y)

/-- The function `fibonacciSeries(n)` with exact integer arithmetic in place of
the addition of doubles. -/
def fibExactLoop : Nat → Int → Int → List Int
  | 0, _, _ => []
  | k + 1, a, b => a :: fibExactLoop k b (a + b)

/-- The series that `fibonacciSeries(n)` returns under exact integer
arithmetic. -/
def fibonacciExact (n : Int) : List Int :=
  fibExactLoop n.toNat 0 1

/-! ## Predicates of the specification -/

/-- The JavaScript value of an integer. -/
def jsInt (i : Int) : JsVal := .num (.int i)

/-- The constraint that the specification puts on the value of the keys
`prime`, `lcm` and `hcf`: an array of length 1 to 1000 whose every element is
an integer. -/
def IsIntArray (v : JsVal) : Prop :=
  ∃ items : List JsVal, v = .arr items ∧ 1 ≤ items.length ∧ items.length ≤ 1000 ∧
    ∀ x ∈ items, ∃ i : Int, x = .num (.int i)

/-- The constraint that the specification puts on the value of the key `AI`: a
string whose trimmed length is at least 1 and whose own length is at most
1000. -/
def IsQuestion (v : JsVal) : Prop :=
  ∃ s : JsString, v = .str s ∧ 1 ≤ (trim s).length ∧ s.length ≤ 1000

/-- The invariant that the specification puts on a response envelope: exactly
one of `data` and `error` is present, the success flag is `true` exactly when
`data` is present and `false` exactly when `error` is present, and the
identity field is the fixed constant. -/
def WellFormed (r : Response) : Prop :=
  (r.body.data.isSome ↔ ¬ r.body.error.isSome) ∧
  (r.body.is_success = true ↔ r.body.data.isSome) ∧
  (r.body.is_success = false ↔ r.body.error.isSome) ∧
  r.body.official_email = OFFICIAL_EMAIL

/-- The characters that the specification lets through in an answer: a
letter `a`-`z` or `A`-`Z`, a digit `0`-`9`, the underscore or the hyphen. -/
def IsAnswerChar (c : Nat) : Prop :=
  ('a'.toNat ≤ c ∧ c ≤ 'z'.toNat) ∨ ('A'.toNat ≤ c ∧ c ≤ 'Z'.toNat) ∨
  ('0'.toNat ≤ c ∧ c ≤ '9'.toNat) ∨ c = '_'.toNat ∨ c = '-'.toNat

instance : DecidablePred IsAnswerChar := fun c => by
  unfold IsAnswerChar
  infer_instance

/-! ## The number model -/

/-- The exponent computed by halving is the binary logarithm. -/
theorem ilog2_eq_log2 (v : Nat) : ilog2 v = Nat.log2 v := by
  have key : ∀ (f v : Nat), v ≤ f → ilog2Loop f v = Nat.log2 v := by
    intro f
    induction f with
    | zero =>
      intro v hv
      have : v = 0 := by omega
      subst this
      rw [Nat.log2]
      simp [ilog2Loop]
    | succ f ih =>
      intro v hv
      rw [ilog2Loop, Nat.log2]
      split_ifs with h1 h2 h2
      · omega
      · rfl
      · rw [ih (v / 2) (by omega)]
      · omega
  exact key v v le_rfl

/-- The rounding on a few integers around `2 ^ 53` and `2 ^ 54`: ties go to the
even significand. -/
theorem roundNat_examples :
    roundNat (2 ^ 53 + 1) = 2 ^ 53 ∧ roundNat (2 ^ 53 + 2) = 2 ^ 53 + 2 ∧
    roundNat (2 ^ 53 + 3) = 2 ^ 53 + 4 ∧ roundNat (2 ^ 54 + 2) = 2 ^ 54 ∧
    roundNat (2 ^ 54 + 5) = 2 ^ 54 + 4 ∧ roundNat (2 ^ 54 + 6) = 2 ^ 54 + 8 := by
  decide

/-- The largest finite double is `(2 ^ 53 - 1) * 2 ^ 971`; an integer rounds to
it up to half a step above it, and to `Infinity` from there on. -/
theorem toDouble_overflow :
    toDouble ((2 ^ 53 - 1) * 2 ^ 971 + 2 ^ 970 - 1) = .int ((2 ^ 53 - 1) * 2 ^ 971) ∧
    toDouble ((2 ^ 53 - 1) * 2 ^ 971 + 2 ^ 970) = .posInf := by
  constructor <;> decide!

/-- The elements let through by `arr.every(isInt)` are the integers. -/
theorem intItems_isSome (items : List JsVal) :
    (intItems items).isSome = items.all isInt := by
  induction items with
  | nil => rfl
  | cons x rest ih =>
    cases x with
    | num y =>
      cases y with
      | int i => simp [intItems, isInt, ← ih]
      | _ => simp [intItems, isInt]
    | _ => simp [intItems, isInt]

/-! ## Key resolution -/

/-- C1: a body that is a JSON object whose number of keys is not one is
answered with status 400 and the error "Exactly one key is required", whatever
its keys are; a body with exactly one key that is not one of the five allowed
keys is answered with status 400 and the error "Invalid key". -/
theorem bfhl_key_resolution {ε : Type} (getAiAnswer : JsString → Except ε JsString)
    (props : List (JsString × JsVal)) :
    (props.length ≠ 1 →
      bfhl getAiAnswer (.obj props) =
        some (.ok { status := 400,
                    body := { is_success := false, official_email := OFFICIAL_EMAIL,
                              data := none,
                              error := some (lit "Exactly one key is required") } })) ∧
    (∀ k v, props = [(k, v)] →
      k ≠ lit "fibonacci" → k ≠ lit "prime" → k ≠ lit "lcm" → k ≠ lit "hcf" →
      k ≠ lit "AI" →
      bfhl getAiAnswer (.obj props) =
        some (.ok { status := 400,
                    body := { is_success := false, official_email := OFFICIAL_EMAIL,
                              data := none, error := some (lit "Invalid key") } })) := by
  constructor
  · intro h
    simp [bfhl, route, h, badRequest]
  · rintro k v rfl h1 h2 h3 h4 h5
    simp [bfhl, route, ALLOWED_KEYS, h1, h2, h3, h4, h5, badRequest]

/-- C1, on the two request bodies of the specification:
`{"fibonacci": 5, "prime": [2]}` and `{"foo": 1}`. -/
theorem bfhl_key_resolution_witness :
    bfhl (fun _ => (Except.error () : Except Unit JsString))
        (.obj [(lit "fibonacci", .num (.int 5)), (lit "prime", .arr [.num (.int 2)])]) =
      some (.ok { status := 400,
                  body := { is_success := false, official_email := OFFICIAL_EMAIL,
                            data := none,
                            error := some (lit "Exactly one key is required") } }) ∧
    bfhl (fun _ => (Except.error () : Except Unit JsString))
        (.obj [(lit "foo", .num (.int 1))]) =
      some (.ok { status := 400,
                  body := { is_success := false, official_email := OFFICIAL_EMAIL,
                            data := none, error := some (lit "Invalid key") } }) :=
  ⟨(bfhl_key_resolution _ _).1 (by decide),
   (bfhl_key_resolution _ _).2 _ _ rfl (by decide) (by decide) (by decide) (by decide)
     (by decide)⟩

/-! ## The Fibonacci series -/

/-- The loop of `fibonacciSeries` pushes one value per iteration. -/
theorem fibLoop_length (k : Nat) (a b : JsNum) : (fibLoop k a b).length = k := by
  induction k generalizing a b with
  | zero => rfl
  | succ k ih => simp [fibLoop, ih]

/-- The series has exactly `n` elements (none for a negative `n`). -/
theorem fibonacciSeries_length (n : Int) : (fibonacciSeries n).length = n.toNat :=
  fibLoop_length _ _ _

/-- A shorter run of the loop returns a prefix of a longer run. -/
theorem fibLoop_take (k m : Nat) (a b : JsNum) :
    fibLoop k a b = (fibLoop (k + m) a b).take k := by
  induction k generalizing a b with
  | zero => simp [fibLoop]
  | succ k ih =>
    rw [Nat.succ_add]
    simp only [fibLoop, List.take_succ_cons]
    rw [← ih]

/-- Up to 79 terms no sum is rounded: the series is the list of the exact
Fibonacci numbers `Nat.fib 0, ..., Nat.fib (n - 1)`. -/
theorem fibonacciSeries_exact (n : Int) (h0 : 0 ≤ n) (h79 : n ≤ 79) :
    fibonacciSeries n = (List.range n.toNat).map (fun i => JsNum.int (Nat.fib i)) := by
  have hk : n.toNat ≤ 79 := by omega
  obtain ⟨m, hm⟩ := Nat.exists_eq_add_of_le hk
  have h := fibLoop_take n.toNat m (.int 0) (.int 1)
  rw [← hm] at h
  have full : fibLoop 79 (.int 0) (.int 1) =
      (List.range 79).map (fun i => JsNum.int (Nat.fib i)) := by decide
  rw [fibonacciSeries, h, full, ← List.map_take, List.take_range]
  simp [hk]

/-- C2, at `n = 80`: the last element of `fibonacciSeries(80)` is
14472334024676220, although the two elements before it are the Fibonacci
numbers 5527939700884757 and 8944394323791464, whose sum, the Fibonacci number
of index 79, is 14472334024676221: the sum of two doubles is rounded to 53
significant bits. -/
theorem fibonacciSeries_80_rounded :
    (fibonacciSeries 80)[77]? = some (.int 5527939700884757) ∧
    (fibonacciSeries 80)[78]? = some (.int 8944394323791464) ∧
    (fibonacciSeries 80)[79]? = some (.int 14472334024676220) ∧
    (5527939700884757 + 8944394323791464 : Int) = 14472334024676221 ∧
    Nat.fib 79 = 14472334024676221 := by
  refine ⟨by decide, by decide, by decide, by decide, by decide⟩


/-! ## Primality -/

/-- The rounded square root is the integer square root or one more. -/
theorem floorSqrt_bounds (n : Nat) :
    Nat.sqrt n ≤ floorSqrt n ∧ floorSqrt n ≤ Nat.sqrt n + 1 := by
  unfold floorSqrt
  dsimp only
  split_ifs <;> omega

/-- The loop answers `true` exactly when none of `i, i + 2, i + 4, ...` up to
`limit` divides `n`. -/
theorem primeLoop_eq_true (n : Int) (limit : Nat) (i : Nat) :
    primeLoop n limit i = true ↔
      ∀ t : Nat, i + 2 * t ≤ limit → n.tmod ((i + 2 * t : Nat) : Int) ≠ 0 := by
  generalize hm : limit + 1 - i = m
  induction m using Nat.strong_induction_on generalizing i with
  | _ m ih =>
    rw [primeLoop]
    split_ifs with h1 h2
    · simp only [Bool.false_eq_true, false_iff, not_forall]
      exact ⟨0, by simpa using h1, by simpa using h2⟩
    · rw [ih (limit + 1 - (i + 2)) (by omega) (i + 2) rfl]
      constructor
      · intro h t ht
        rcases t with _ | t
        · simpa using h2
        · have := h t (by omega)
          rwa [show i + 2 + 2 * t = i + 2 * (t + 1) by ring] at this
      · intro h t ht
        have := h (t + 1) (by omega)
        rwa [show i + 2 * (t + 1) = i + 2 + 2 * t by ring] at this
    · simp only [true_iff]
      intro t ht
      omega

/-- Trial division by the odd numbers from 3 up to a limit that is the integer
square root or one more decides the primality of an odd number from 3 on. -/
theorem odd_trial_division (m L : Nat) (h3 : 3 ≤ m) (hodd : m % 2 = 1)
    (hL : Nat.sqrt m ≤ L) (hU : L ≤ Nat.sqrt m + 1) :
    (∀ t : Nat, 3 + 2 * t ≤ L → m % (3 + 2 * t) ≠ 0) ↔ Nat.Prime m := by
  constructor
  · intro h
    rw [Nat.prime_def_le_sqrt]
    refine ⟨by omega, fun d hd hdk hdvd => ?_⟩
    rcases Nat.even_or_odd d with he | ho
    · have h2 : 2 ∣ m := (even_iff_two_dvd.mp he).trans hdvd
      omega
    · obtain ⟨c, hc⟩ := ho
      have hc1 : 1 ≤ c := by omega
      have := h (c - 1) (by omega)
      apply this
      rw [show 3 + 2 * (c - 1) = d by omega]
      exact Nat.mod_eq_zero_of_dvd hdvd
  · intro hp t ht hmod
    have hdvd : (3 + 2 * t) ∣ m := Nat.dvd_of_mod_eq_zero hmod
    rcases (Nat.dvd_prime hp).mp hdvd with h1 | h1
    · omega
    · have hk := Nat.sqrt_le' m
      have : m ≤ Nat.sqrt m + 1 := by omega
      nlinarith
/-- On an integer, `isPrime` answers `true` exactly on the prime numbers. -/
theorem isPrime_int_eq_true (n : Int) :
    isPrime (.num (.int n)) = true ↔ Nat.Prime n.toNat := by
  simp only [isPrime]
  split_ifs with h1 h2 h3
  · simp only [Bool.false_eq_true, false_iff]
    intro hp
    have := hp.two_le
    omega
  · subst h2
    simp only [true_iff]
    exact Nat.prime_two
  · simp only [Bool.false_eq_true, false_iff]
    intro hp
    have hdvd : (2 : Int) ∣ n := Int.dvd_iff_tmod_eq_zero.mpr h3
    have h2' : 2 ∣ n.toNat := by
      have : ((2 : Nat) : Int) ∣ ((n.toNat : Nat) : Int) := by
        rw [Int.toNat_of_nonneg (by omega)]
        exact_mod_cast hdvd
      exact Int.natCast_dvd_natCast.mp this
    rcases (Nat.dvd_prime hp).mp h2' with h | h <;> omega
  · obtain ⟨m, rfl⟩ : ∃ m : Nat, n = m := ⟨n.toNat, (Int.toNat_of_nonneg (by omega)).symm⟩
    have hodd : m % 2 = 1 := by
      have : ¬ ((2 : Nat) : Int) ∣ (m : Int) := fun hd => h3 (Int.dvd_iff_tmod_eq_zero.mp hd)
      rw [Int.natCast_dvd_natCast] at this
      omega
    rw [primeLoop_eq_true, Int.toNat_ofNat,
      ← odd_trial_division m (floorSqrt m) (by omega) hodd (floorSqrt_bounds m).1
        (floorSqrt_bounds m).2]
    refine forall_congr' fun t => imp_congr_right fun _ => not_congr ?_
    rw [← Int.dvd_iff_tmod_eq_zero, Int.natCast_dvd_natCast, Nat.dvd_iff_mod_eq_zero]

/-- Primality of an integer, as the absence of a divisor `d` with `2 ≤ d` and
`d * d ≤ n`. -/
theorem prime_toNat_iff_trial (n : Int) :
    Nat.Prime n.toNat ↔ 2 ≤ n ∧ ∀ d : Int, 2 ≤ d → d * d ≤ n → ¬ d ∣ n := by
  rw [Nat.prime_def_le_sqrt]
  constructor
  · rintro ⟨h2, h⟩
    have hn : (n.toNat : Int) = n := Int.toNat_of_nonneg (by omega)
    refine ⟨by omega, fun d hd hdd hdvd => ?_⟩
    have hdn : (d.toNat : Int) = d := Int.toNat_of_nonneg (by omega)
    refine h d.toNat (by omega) ?_ ?_
    · rw [Nat.le_sqrt]
      have : ((d.toNat * d.toNat : Nat) : Int) ≤ (n.toNat : Int) := by
        push_cast
        rw [hdn, hn]
        exact hdd
      exact_mod_cast this
    · rw [← Int.natCast_dvd_natCast, hdn, hn]
      exact hdvd
  · rintro ⟨h2, h⟩
    have hn : (n.toNat : Int) = n := Int.toNat_of_nonneg (by omega)
    refine ⟨by omega, fun d hd hdk hdvd => ?_⟩
    rw [Nat.le_sqrt] at hdk
    refine h d (by omega) ?_ ?_
    · rw [← hn]
      exact_mod_cast hdk
    · rw [← hn]
      exact Int.natCast_dvd_natCast.mpr hdvd

/-- C3: for every integer `n`, `isPrime(n)` is `true` exactly when `n ≥ 2` and
no integer `d` with `2 ≤ d` and `d * d ≤ n` divides `n`, that is, exactly when
`n` is a prime number; `isPrime` is `false` at 0, 1 and -5 and `true` at 2. -/
theorem isPrime_correct (n : Int) :
    (isPrime (.num (.int n)) = true ↔
      2 ≤ n ∧ ∀ d : Int, 2 ≤ d → d * d ≤ n → ¬ d ∣ n) ∧
    (isPrime (.num (.int n)) = true ↔ Nat.Prime n.toNat) ∧
    isPrime (.num (.int 0)) = false ∧ isPrime (.num (.int 1)) = false ∧
    isPrime (.num (.int (-5))) = false ∧ isPrime (.num (.int 2)) = true :=
  ⟨(isPrime_int_eq_true n).trans (prime_toNat_iff_trial n), isPrime_int_eq_true n,
    by decide, by decide, by decide, by decide⟩

/-! ## Greatest common divisor and least common multiple -/

/-- On non-negative operands the loop of `gcd` computes the greatest common
divisor. -/
theorem gcdLoop_eq (x y : Int) (hx : 0 ≤ x) (hy : 0 ≤ y) :
    gcdLoop x y = (Int.gcd x y : Int) := by
  generalize hm : y.natAbs = m
  induction m using Nat.strong_induction_on generalizing x y with
  | _ m ih =>
    rw [gcdLoop]
    split_ifs with h0
    · subst h0
      simp [Int.gcd, abs_of_nonneg hx]
    · have hpos : 0 < y := lt_of_le_of_ne hy (Ne.symm h0)
      have hlt : x.tmod y < y := Int.tmod_lt_of_pos x hpos
      have hnn : 0 ≤ x.tmod y := Int.tmod_nonneg y hx
      rw [ih (x.tmod y).natAbs (by omega) y (x.tmod y) hy hnn rfl]
      rw [Int.tmod_eq_emod hx hy]
      obtain ⟨a, rfl⟩ := Int.eq_ofNat_of_zero_le hx
      obtain ⟨b, rfl⟩ := Int.eq_ofNat_of_zero_le hy
      rw [← Int.natCast_mod, Int.gcd_natCast_natCast, Int.gcd_natCast_natCast, Nat.gcd_comm b,
        ← Nat.gcd_rec b a, Nat.gcd_comm]

/-- The function `gcd` computes the greatest common divisor of its arguments. -/
theorem gcd_eq (a b : Int) : gcd a b = (Int.gcd a b : Int) := by
  rw [gcd, gcdLoop_eq _ _ (abs_nonneg a) (abs_nonneg b)]
  simp [Int.gcd, Int.natAbs_abs]

/-- The result of `gcd` is non-negative. -/
theorem gcd_nonnegative (a b : Int) : 0 ≤ gcd a b := by
  rw [gcd_eq]
  exact Int.natCast_nonneg _

/-- The result of `gcd` divides both arguments. -/
theorem gcd_dvd (a b : Int) : gcd a b ∣ a ∧ gcd a b ∣ b := by
  rw [gcd_eq]
  exact ⟨Int.gcd_dvd_left, Int.gcd_dvd_right⟩

/-- Every common divisor of the arguments divides the result of `gcd`. -/
theorem gcd_greatest (a b d : Int) (ha : d ∣ a) (hb : d ∣ b) : d ∣ gcd a b := by
  rw [gcd_eq]
  exact Int.dvd_gcd ha hb

/-- C4: for all integers `a` and `b`, `gcd(a, b)` is non-negative, divides `a`
and `b`, and is divisible by every common divisor of `a` and `b`; moreover
`gcd(0, 0) = 0`, `gcd(a, 0) = |a|` and `gcd(0, b) = |b|`. -/
theorem gcd_correct (a b : Int) :
    0 ≤ gcd a b ∧ gcd a b ∣ a ∧ gcd a b ∣ b ∧
    (∀ d : Int, d ∣ a → d ∣ b → d ∣ gcd a b) ∧
    gcd 0 0 = 0 ∧ gcd a 0 = |a| ∧ gcd 0 b = |b| := by
  refine ⟨gcd_nonnegative a b, (gcd_dvd a b).1, (gcd_dvd a b).2, fun d => gcd_greatest a b d, ?_, ?_, ?_⟩
  · rw [gcd_eq]
    rfl
  · rw [gcd_eq, Int.gcd_zero_right, Int.natCast_natAbs]
  · rw [gcd_eq, Int.gcd_zero_left, Int.natCast_natAbs]

/-- An integer result below `2 ^ 53` in magnitude is not changed by rounding. -/
theorem toDouble_of_small (x : Int) (h : x.natAbs < 2 ^ 53) : toDouble x = .int x := by
  have hr : roundNat x.natAbs = x.natAbs := by rw [roundNat, if_pos h]
  have hlt : x.natAbs < (2 ^ 256) ^ 4 := lt_trans h (by norm_num)
  rw [toDouble, hr, if_pos hlt]
  congr 1
  split_ifs <;> omega

/-- The product that `lcm` takes the absolute value of is, before rounding,
the quotient of `|a * b|` by the greatest common divisor, up to sign. -/
theorem lcm_product_abs (a b : Int) (ha : a ≠ 0) :
    |a / gcd a b * b| = |a * b| / gcd a b := by
  have hg : gcd a b ∣ a := by rw [gcd_eq]; exact Int.gcd_dvd_left
  have hpos : 0 < gcd a b := by
    rw [gcd_eq]
    exact_mod_cast Int.gcd_pos_of_ne_zero_left b ha
  generalize gcd a b = g at hg hpos
  obtain ⟨c, rfl⟩ := hg
  rw [Int.mul_ediv_cancel_left _ (ne_of_gt hpos)]
  have h2 : |g * c * b| = |c * b| * g := by
    rw [mul_assoc, abs_mul, abs_of_pos hpos, mul_comm]
  rw [h2, Int.mul_ediv_cancel _ (ne_of_gt hpos)]

/-- Whenever the exact least common multiple `|a * b| / gcd(a, b)` is below
`2 ^ 53`, `lcm(a, b)` returns it; `lcm` returns 0 when an operand is 0. -/
theorem lcm_of_small (a b : Int) :
    ((a = 0 ∨ b = 0) → lcm a b = .int 0) ∧
    (a ≠ 0 → b ≠ 0 → |a * b| / gcd a b < 2 ^ 53 →
      lcm a b = .int (|a * b| / gcd a b)) := by
  constructor
  · intro h
    simp [lcm, h]
  · intro ha hb hlt
    have hab := lcm_product_abs a b ha
    have hsmall : (a / gcd a b * b).natAbs < 2 ^ 53 := by
      have : ((a / gcd a b * b).natAbs : Int) < 2 ^ 53 := by
        rw [Int.natCast_natAbs, hab]
        exact hlt
      exact_mod_cast this
    rw [lcm, if_neg (by tauto), jsMul, toDouble_of_small _ hsmall, jsAbs, hab]

/-- C5, at `a = 94906267` and `b = 94906269`: the two numbers are coprime and
their product, the exact least common multiple, is 9007199705687823; it lies
above `2 ^ 53` and is odd, so it is not a double, and `lcm(a, b)` returns the
rounded product 9007199705687824. -/
theorem lcm_rounded :
    gcd 94906267 94906269 = 1 ∧
    |(94906267 * 94906269 : Int)| / gcd 94906267 94906269 = 9007199705687823 ∧
    lcm 94906267 94906269 = .int 9007199705687824 := by
  have hg : gcd 94906267 94906269 = 1 := by
    rw [gcd_eq]
    decide
  refine ⟨hg, ?_, ?_⟩
  · rw [hg]
    decide
  · rw [lcm, hg]
    decide

/-! ## Validation of the request value -/

/-- C6: the request `{"fibonacci": v}` is answered with status 200 and
`data = fibonacciSeries(v)` when `v` is an integer with `0 ≤ v ≤ 10000`, the
bounds included, and with status 400 and the error "fibonacci must be an
integer between 0 and 10000", without data, for every other `v`; so it
succeeds exactly for the integers from 0 to 10000. -/
theorem bfhl_fibonacci {ε : Type} (getAiAnswer : JsString → Except ε JsString)
    (v : JsVal) :
    (∀ n : Int, v = .num (.int n) → 0 ≤ n → n ≤ 10000 →
      bfhl getAiAnswer (.obj [(lit "fibonacci", v)]) =
        some (.ok { status := 200,
                    body := { is_success := true, official_email := OFFICIAL_EMAIL,
                              data := some (.arr ((fibonacciSeries n).map JsVal.num)),
                              error := none } })) ∧
    ((¬ ∃ n : Int, v = .num (.int n) ∧ 0 ≤ n ∧ n ≤ 10000) →
      bfhl getAiAnswer (.obj [(lit "fibonacci", v)]) =
        some (.ok { status := 400,
                    body := { is_success := false, official_email := OFFICIAL_EMAIL,
                              data := none,
                              error := some (lit
                                "fibonacci must be an integer between 0 and 10000") } })) ∧
    ((∃ r, bfhl getAiAnswer (.obj [(lit "fibonacci", v)]) = some (.ok r) ∧
        r.body.is_success = true) ↔
      ∃ n : Int, v = .num (.int n) ∧ 0 ≤ n ∧ n ≤ 10000) := by
  have hkey : lit "fibonacci" ∈ ALLOWED_KEYS := by decide
  have hok : ∀ n : Int, v = .num (.int n) → 0 ≤ n → n ≤ 10000 →
      bfhl getAiAnswer (.obj [(lit "fibonacci", v)]) =
        some (.ok { status := 200,
                    body := { is_success := true, official_email := OFFICIAL_EMAIL,
                              data := some (.arr ((fibonacciSeries n).map JsVal.num)),
                              error := none } }) := by
    rintro n rfl h0 h1
    have hr : ¬ (n < 0 ∨ n > 10000) := by omega
    simp [bfhl, route, hkey, getProp, hr, sendData]
  have hbad : (¬ ∃ n : Int, v = .num (.int n) ∧ 0 ≤ n ∧ n ≤ 10000) →
      bfhl getAiAnswer (.obj [(lit "fibonacci", v)]) =
        some (.ok { status := 400,
                    body := { is_success := false, official_email := OFFICIAL_EMAIL,
                              data := none,
                              error := some (lit
                                "fibonacci must be an integer between 0 and 10000") } }) := by
    intro h
    have hroute : route (.obj [(lit "fibonacci", v)]) =
        .reply (badRequest (lit "fibonacci must be an integer between 0 and 10000")) := by
      rcases v with _ | _ | _ | x | _ | _ | _
      case num =>
        rcases x with n | _ | _ | _
        case int =>
          have hr : n < 0 ∨ n > 10000 := by
            by_contra hc
            exact h ⟨n, rfl, by omega, by omega⟩
          simp [route, hkey, getProp, hr]
        all_goals simp [route, hkey, getProp]
      all_goals simp [route, hkey, getProp]
    simp [bfhl, hroute, badRequest]
  refine ⟨hok, hbad, ?_⟩
  constructor
  · rintro ⟨r, hr, hs⟩
    by_contra hc
    rw [hbad hc] at hr
    simp only [Option.some.injEq, Except.ok.injEq] at hr
    rw [← hr] at hs
    simp at hs
  · rintro ⟨n, hn, h0, h1⟩
    exact ⟨_, hok n hn h0 h1, rfl⟩

/-- C6, on the request `{"fibonacci": 5}` of the specification and on the
value 10001, just above the range. -/
theorem bfhl_fibonacci_witness :
    bfhl (fun _ => (Except.error () : Except Unit JsString))
        (.obj [(lit "fibonacci", .num (.int 5))]) =
      some (.ok { status := 200,
                  body := { is_success := true, official_email := OFFICIAL_EMAIL,
                            data := some (.arr [.num (.int 0), .num (.int 1), .num (.int 1),
                              .num (.int 2), .num (.int 3)]),
                            error := none } }) ∧
    bfhl (fun _ => (Except.error () : Except Unit JsString))
        (.obj [(lit "fibonacci", .num (.int 10001))]) =
      some (.ok { status := 400,
                  body := { is_success := false, official_email := OFFICIAL_EMAIL,
                            data := none,
                            error := some (lit
                              "fibonacci must be an integer between 0 and 10000") } }) :=
  ⟨(bfhl_fibonacci _ _).1 5 rfl (by decide) (by decide),
   (bfhl_fibonacci _ _).2.1 (by
      rintro ⟨n, hn, _, h1⟩
      cases hn
      omega)⟩

/-- The branch `prime` of the handler, in terms of the array checks. -/
theorem route_prime (v : JsVal) :
    route (.obj [(lit "prime", v)]) =
      match checkArray "prime" v with
      | .error r => .reply r
      | .ok (items, _, _) => .reply (sendData (.arr (items.filter isPrime))) := rfl

/-- The branch `lcm` of the handler, in terms of the array checks. -/
theorem route_lcm (v : JsVal) :
    route (.obj [(lit "lcm", v)]) =
      match checkArray "lcm" v with
      | .error r => .reply r
      | .ok (_, x, rest) =>
        match lcmReduce x rest with
        | some w => .reply (sendData (.num w))
        | none => .hang := rfl

/-- The branch `hcf` of the handler, in terms of the array checks. -/
theorem route_hcf (v : JsVal) :
    route (.obj [(lit "hcf", v)]) =
      match checkArray "hcf" v with
      | .error r => .reply r
      | .ok (_, x, rest) => .reply (sendData (.num (.int (gcdReduce x rest)))) := rfl

/-- The integers found by `intItems` are the elements of the array. -/
theorem intItems_eq_some (items : List JsVal) (ints : List Int) :
    intItems items = some ints ↔ items = ints.map jsInt := by
  induction items generalizing ints with
  | nil =>
    cases ints <;> simp [intItems]
  | cons x rest ih =>
    rcases x with _ | _ | _ | x | _ | _ | _
    case num =>
      rcases x with n | _ | _ | _
      case int =>
        cases ints with
        | nil => simp [intItems]
        | cons i more =>
          simp only [intItems, Option.map_eq_some', List.map_cons, List.cons.injEq, jsInt,
            JsVal.num.injEq, JsNum.int.injEq]
          constructor
          · rintro ⟨l, hl, rfl, rfl⟩
            exact ⟨rfl, (ih l).mp hl⟩
          · rintro ⟨rfl, h⟩
            exact ⟨more, (ih more).mpr h, rfl, rfl⟩
      all_goals cases ints <;> simp [intItems, jsInt]
    all_goals cases ints <;> simp [intItems, jsInt]

/-- An array of integers is the image of a list of integers. -/
theorem exists_ints_of_forall (items : List JsVal)
    (h : ∀ x ∈ items, ∃ i : Int, x = .num (.int i)) : ∃ ints : List Int, items = ints.map jsInt := by
  induction items with
  | nil => exact ⟨[], rfl⟩
  | cons x rest ih =>
    obtain ⟨i, rfl⟩ := h x (List.mem_cons_self _ _)
    obtain ⟨l, rfl⟩ := ih (fun y hy => h y (List.mem_cons_of_mem _ hy))
    exact ⟨i :: l, rfl⟩

/-- The arrays that satisfy the constraint of the specification are the images
of the non-empty lists of at most 1000 integers. -/
theorem isIntArray_iff (v : JsVal) :
    IsIntArray v ↔
      ∃ (x : Int) (rest : List Int), v = .arr ((x :: rest).map jsInt) ∧ rest.length + 1 ≤ 1000 := by
  constructor
  · rintro ⟨items, rfl, h1, h2, hall⟩
    obtain ⟨ints, rfl⟩ := exists_ints_of_forall items hall
    cases ints with
    | nil => simp at h1
    | cons x rest => exact ⟨x, rest, rfl, by simpa using h2⟩
  · rintro ⟨x, rest, rfl, h⟩
    refine ⟨_, rfl, by simp, by simpa using h, ?_⟩
    intro y hy
    obtain ⟨i, _, rfl⟩ := List.mem_map.mp hy
    exact ⟨i, rfl⟩

/-- The array checks let a non-empty array of at most 1000 integers through. -/
theorem checkArray_ok (name : String) (x : Int) (rest : List Int) (h : rest.length + 1 ≤ 1000) :
    checkArray name (.arr ((x :: rest).map jsInt)) = .ok ((x :: rest).map jsInt, x, rest) := by
  have hi : intItems (rest.map jsInt) = some rest := (intItems_eq_some _ _).mpr rfl
  have hl : ¬ (rest.length + 1 > 1000) := by omega
  simp only [checkArray, List.map_cons, List.length_cons, List.length_map, hl, if_false]
  rw [hi]
  rfl

/-- The array checks answer every other value with a 400 response. -/
theorem checkArray_error (name : String) (v : JsVal) (h : ¬ IsIntArray v) :
    ∃ msg, checkArray name v = .error (badRequest msg) := by
  rcases v with _ | _ | _ | _ | _ | items | _
  case arr =>
    cases items with
    | nil => exact ⟨_, rfl⟩
    | cons first more =>
      by_cases hl : (first :: more).length > 1000
      · exact ⟨lit (name ++ " must be a non-empty array of integers"),
          by simp only [checkArray, hl, if_true]⟩
      · cases hi : intItems (first :: more) with
        | none =>
          refine ⟨lit (name ++ " must contain only integers"), ?_⟩
          simp only [checkArray, hl, if_false]
          cases first with
          | num x =>
            cases x with
            | int n =>
              cases hrest : intItems more with
              | none => rfl
              | some rest => simp [intItems, hrest] at hi
            | _ => rfl
          | _ => rfl
        | some ints =>
          exfalso
          apply h
          rw [intItems_eq_some] at hi
          refine ⟨_, rfl, by simp, by simpa using hl, ?_⟩
          rw [hi]
          intro y hy
          obtain ⟨i, _, rfl⟩ := List.mem_map.mp hy
          exact ⟨i, rfl⟩
  all_goals exact ⟨_, rfl⟩

/-- The three array keys reject every value outside the constraint with a 400
failure envelope. -/
theorem route_array_error (k : JsString)
    (hk : k = lit "prime" ∨ k = lit "lcm" ∨ k = lit "hcf") (v : JsVal) (h : ¬ IsIntArray v) :
    ∃ msg, route (.obj [(k, v)]) = .reply (badRequest msg) := by
  rcases hk with rfl | rfl | rfl
  · obtain ⟨msg, hmsg⟩ := checkArray_error "prime" v h
    exact ⟨msg, by rw [route_prime, hmsg]⟩
  · obtain ⟨msg, hmsg⟩ := checkArray_error "lcm" v h
    exact ⟨msg, by rw [route_lcm, hmsg]⟩
  · obtain ⟨msg, hmsg⟩ := checkArray_error "hcf" v h
    exact ⟨msg, by rw [route_hcf, hmsg]⟩

/-- On a value inside the constraint the three array keys compute: the handler
sends a success envelope with data, or (key `lcm` only) never returns. -/
theorem route_array_ok (k : JsString)
    (hk : k = lit "prime" ∨ k = lit "lcm" ∨ k = lit "hcf") (v : JsVal) (h : IsIntArray v) :
    route (.obj [(k, v)]) = .hang ∨
    ∃ d, route (.obj [(k, v)]) =
      .reply { status := 200,
               body := { is_success := true, official_email := OFFICIAL_EMAIL,
                         data := some d, error := none } } := by
  obtain ⟨x, rest, rfl, hlen⟩ := (isIntArray_iff v).mp h
  rcases hk with rfl | rfl | rfl
  · right
    exact ⟨_, by rw [route_prime, checkArray_ok _ _ _ hlen]; rfl⟩
  · rw [route_lcm, checkArray_ok _ _ _ hlen]
    cases hred : lcmReduce x rest with
    | none =>
      left
      simp only [hred]
    | some w =>
      right
      exact ⟨.num w, by simp only [hred]; rfl⟩
  · right
    exact ⟨_, by rw [route_hcf, checkArray_ok _ _ _ hlen]; rfl⟩

/-- C7: for each of the keys `prime`, `lcm` and `hcf`, the request `{k: v}` is
answered with a status-400 failure envelope exactly when `v` is not an array of
1 to 1000 elements that are all integers; a value that is such an array is
never answered with status 400: the handler goes on to compute.  The rule is
the same for the three keys. -/
theorem bfhl_array_validation {ε : Type} (getAiAnswer : JsString → Except ε JsString)
    (k : JsString) (hk : k = lit "prime" ∨ k = lit "lcm" ∨ k = lit "hcf") (v : JsVal) :
    (¬ IsIntArray v →
      ∃ msg, bfhl getAiAnswer (.obj [(k, v)]) =
        some (.ok { status := 400,
                    body := { is_success := false, official_email := OFFICIAL_EMAIL,
                              data := none, error := some msg } })) ∧
    (IsIntArray v →
      bfhl getAiAnswer (.obj [(k, v)]) = none ∨
      ∃ d, bfhl getAiAnswer (.obj [(k, v)]) =
        some (.ok { status := 200,
                    body := { is_success := true, official_email := OFFICIAL_EMAIL,
                              data := some d, error := none } })) ∧
    ((∃ r, bfhl getAiAnswer (.obj [(k, v)]) = some (.ok r) ∧ r.status = 400) ↔
      ¬ IsIntArray v) := by
  have hbad : ¬ IsIntArray v →
      ∃ msg, bfhl getAiAnswer (.obj [(k, v)]) =
        some (.ok { status := 400,
                    body := { is_success := false, official_email := OFFICIAL_EMAIL,
                              data := none, error := some msg } }) := by
    intro h
    obtain ⟨msg, hmsg⟩ := route_array_error k hk v h
    exact ⟨msg, by rw [bfhl, hmsg]; rfl⟩
  have hok : IsIntArray v →
      bfhl getAiAnswer (.obj [(k, v)]) = none ∨
      ∃ d, bfhl getAiAnswer (.obj [(k, v)]) =
        some (.ok { status := 200,
                    body := { is_success := true, official_email := OFFICIAL_EMAIL,
                              data := some d, error := none } }) := by
    intro h
    rcases route_array_ok k hk v h with hr | ⟨d, hr⟩
    · left
      rw [bfhl, hr]
    · right
      exact ⟨d, by rw [bfhl, hr]⟩
  refine ⟨hbad, hok, ?_⟩
  constructor
  · rintro ⟨r, hr, hs⟩ hv
    rcases hok hv with h | ⟨d, h⟩
    · rw [h] at hr
      cases hr
    · rw [h] at hr
      simp only [Option.some.injEq, Except.ok.injEq] at hr
      rw [← hr] at hs
      simp at hs
  · intro hv
    obtain ⟨msg, h⟩ := hbad hv
    exact ⟨_, h, rfl⟩

/-- C7, on the request `{"prime": []}` and on an array of 1001 integers (both
rejected), on an array of 1000 integers and on `{"hcf": [12, 18, 24]}` (not
rejected). -/
theorem bfhl_array_validation_witness :
    (∃ msg, bfhl (fun _ => (Except.error () : Except Unit JsString))
        (.obj [(lit "prime", .arr [])]) =
      some (.ok { status := 400,
                  body := { is_success := false, official_email := OFFICIAL_EMAIL,
                            data := none, error := some msg } })) ∧
    (∃ msg, bfhl (fun _ => (Except.error () : Except Unit JsString))
        (.obj [(lit "lcm", .arr (List.replicate 1001 (jsInt 1)))]) =
      some (.ok { status := 400,
                  body := { is_success := false, official_email := OFFICIAL_EMAIL,
                            data := none, error := some msg } })) ∧
    (¬ ∃ r, bfhl (fun _ => (Except.error () : Except Unit JsString))
        (.obj [(lit "prime", .arr (List.replicate 1000 (jsInt 1)))]) = some (.ok r) ∧
      r.status = 400) ∧
    ¬ ∃ r, bfhl (fun _ => (Except.error () : Except Unit JsString))
        (.obj [(lit "hcf", .arr [jsInt 12, jsInt 18, jsInt 24])]) = some (.ok r) ∧
      r.status = 400 :=
  ⟨(bfhl_array_validation _ (lit "prime") (Or.inl rfl) (.arr [])).1 (by
      rintro ⟨items, h, h1, _⟩
      cases h
      simp at h1),
   (bfhl_array_validation _ (lit "lcm") (Or.inr (Or.inl rfl))
      (.arr (List.replicate 1001 (jsInt 1)))).1 (by
      rintro ⟨items, h, _, h2, _⟩
      cases h
      rw [List.length_replicate] at h2
      omega),
   fun h => ((bfhl_array_validation _ (lit "prime") (Or.inl rfl)
      (.arr (List.replicate 1000 (jsInt 1)))).2.2.mp h)
      ⟨_, rfl, by rw [List.length_replicate]; omega, by rw [List.length_replicate],
        fun x hx => ⟨1, List.eq_of_mem_replicate hx⟩⟩,
   fun h => ((bfhl_array_validation _ (lit "hcf") (Or.inr (Or.inr rfl))
      (.arr [jsInt 12, jsInt 18, jsInt 24])).2.2.mp h)
      ⟨_, rfl, by decide, by decide, by
        intro x hx
        simp only [List.mem_cons, List.mem_singleton, List.not_mem_nil, or_false] at hx
        rcases hx with rfl | rfl | rfl
        · exact ⟨12, rfl⟩
        · exact ⟨18, rfl⟩
        · exact ⟨24, rfl⟩⟩⟩

/-- The branch `AI` of the handler. -/
theorem route_ai (v : JsVal) :
    route (.obj [(lit "AI", v)]) =
      match v with
      | .str question =>
        if (trim question).length = 0 then
          .reply (badRequest (lit "AI must be a non-empty string"))
        else if question.length > 1000 then
          .reply (badRequest (lit "AI question is too long"))
        else .askAi (trim question)
      | _ => .reply (badRequest (lit "AI must be a non-empty string")) := rfl

/-- C8: the request `{"AI": v}` reaches the call of the delegate, with the
trimmed copy of `v` as the question, exactly when `v` is a string whose trimmed
length is at least 1 and whose own length is at most 1000; the handler then
answers with what the delegate returns.  Every other `v` is answered with a
status-400 failure envelope, whatever the delegate is: the delegate is not
called. -/
theorem bfhl_ai_validation {ε : Type} (getAiAnswer : JsString → Except ε JsString)
    (v : JsVal) :
    (∀ s : JsString, v = .str s → 1 ≤ (trim s).length → s.length ≤ 1000 →
      route (.obj [(lit "AI", v)]) = .askAi (trim s) ∧
      bfhl getAiAnswer (.obj [(lit "AI", v)]) =
        match getAiAnswer (trim s) with
        | .ok answer =>
          some (.ok { status := 200,
                      body := { is_success := true, official_email := OFFICIAL_EMAIL,
                                data := some (.str answer), error := none } })
        | .error err => some (.error err)) ∧
    (¬ IsQuestion v →
      ∃ msg, route (.obj [(lit "AI", v)]) = .reply (badRequest msg) ∧
        bfhl getAiAnswer (.obj [(lit "AI", v)]) =
          some (.ok { status := 400,
                      body := { is_success := false, official_email := OFFICIAL_EMAIL,
                                data := none, error := some msg } })) ∧
    ((∃ q, route (.obj [(lit "AI", v)]) = .askAi q) ↔ IsQuestion v) := by
  have hok : ∀ s : JsString, v = .str s → 1 ≤ (trim s).length → s.length ≤ 1000 →
      route (.obj [(lit "AI", v)]) = .askAi (trim s) := by
    rintro s rfl h1 h2
    rw [route_ai]
    simp only
    rw [if_neg (by omega), if_neg (by omega)]
  have hbad : ¬ IsQuestion v →
      ∃ msg, route (.obj [(lit "AI", v)]) = .reply (badRequest msg) := by
    intro h
    rw [route_ai]
    cases v with
    | str s =>
      simp only
      by_cases h1 : (trim s).length = 0
      · exact ⟨_, by rw [if_pos h1]⟩
      · by_cases h2 : s.length > 1000
        · exact ⟨_, by rw [if_neg h1, if_pos h2]⟩
        · exact absurd ⟨s, rfl, by omega, by omega⟩ h
    | _ => exact ⟨_, rfl⟩
  refine ⟨?_, ?_, ?_⟩
  · intro s hs h1 h2
    refine ⟨hok s hs h1 h2, ?_⟩
    rw [bfhl, hok s hs h1 h2]
    dsimp only
    cases getAiAnswer (trim s) <;> rfl
  · intro h
    obtain ⟨msg, hmsg⟩ := hbad h
    exact ⟨msg, hmsg, by rw [bfhl, hmsg]; rfl⟩
  · constructor
    · rintro ⟨q, hq⟩
      by_contra hv
      obtain ⟨msg, hmsg⟩ := hbad hv
      rw [hmsg] at hq
      cases hq
    · rintro ⟨s, hs, h1, h2⟩
      exact ⟨_, hok s hs h1 h2⟩

/-- C8, on the question `" hi "`, passed on as `"hi"` to a delegate that
answers with its question, and on a question of three spaces, rejected. -/
theorem bfhl_ai_validation_witness :
    (route (.obj [(lit "AI", .str (lit " hi "))]) = .askAi (lit "hi") ∧
      bfhl (fun q => (Except.ok q : Except Unit JsString))
          (.obj [(lit "AI", .str (lit " hi "))]) =
        some (.ok { status := 200,
                    body := { is_success := true, official_email := OFFICIAL_EMAIL,
                              data := some (.str (lit "hi")), error := none } })) ∧
    ∃ msg, route (.obj [(lit "AI", .str (lit "   "))]) = .reply (badRequest msg) ∧
      bfhl (fun q => (Except.ok q : Except Unit JsString))
          (.obj [(lit "AI", .str (lit "   "))]) =
        some (.ok { status := 400,
                    body := { is_success := false, official_email := OFFICIAL_EMAIL,
                              data := none, error := some msg } }) :=
  ⟨(bfhl_ai_validation _ _).1 (lit " hi ") rfl (by decide) (by decide),
   (bfhl_ai_validation _ _).2.1 (by
      rintro ⟨s, hs, h1, _⟩
      cases hs
      exact absurd h1 (by decide))⟩

/-! ## The computations -/

/-- C9: on an array of 1 to 1000 integers the key `prime` is answered with
status 200 and, as data, the elements of the array that are prime numbers, in
their order in the array and as often as they occur in it. -/
theorem bfhl_prime {ε : Type} (getAiAnswer : JsString → Except ε JsString)
    (x : Int) (rest : List Int) (h : rest.length + 1 ≤ 1000) :
    bfhl getAiAnswer (.obj [(lit "prime", .arr ((x :: rest).map jsInt))]) =
      some (.ok { status := 200,
                  body := { is_success := true, official_email := OFFICIAL_EMAIL,
                            data := some (.arr
                              (((x :: rest).filter (fun i => Nat.Prime i.toNat)).map jsInt)),
                            error := none } }) := by
  have hf : ((x :: rest).map jsInt).filter isPrime =
      ((x :: rest).filter (fun i => Nat.Prime i.toNat)).map jsInt := by
    rw [List.filter_map]
    congr 1
    apply List.filter_congr
    intro i _
    simp only [Function.comp_apply, jsInt]
    rw [Bool.eq_iff_iff, isPrime_int_eq_true, decide_eq_true_iff]
  rw [bfhl, route_prime, checkArray_ok _ _ _ h]
  dsimp only
  rw [hf]
  rfl

/-- C9, on the request `{"prime": [2, 3, 4, 5, 9]}` of the specification, whose
data is `[2, 3, 5]`. -/
theorem bfhl_prime_witness :
    bfhl (fun _ => (Except.error () : Except Unit JsString))
        (.obj [(lit "prime", .arr [jsInt 2, jsInt 3, jsInt 4, jsInt 5, jsInt 9])]) =
      some (.ok { status := 200,
                  body := { is_success := true, official_email := OFFICIAL_EMAIL,
                            data := some (.arr [jsInt 2, jsInt 3, jsInt 5]),
                            error := none } }) := by
  have h := bfhl_prime (fun _ => (Except.error () : Except Unit JsString)) 2 [3, 4, 5, 9]
    (by decide)
  have p2 : Nat.Prime 2 := by norm_num
  have p3 : Nat.Prime 3 := by norm_num
  have p4 : ¬ Nat.Prime 4 := by norm_num
  have p5 : Nat.Prime 5 := by norm_num
  have p9 : ¬ Nat.Prime 9 := by norm_num
  have hf : ([2, 3, 4, 5, 9] : List Int).filter (fun i => Nat.Prime i.toNat) = [2, 3, 5] := by
    simp [List.filter_cons, p2, p3, p4, p5, p9]
  rw [hf] at h
  exact h

/-- The result of the `reduce` of the key `hcf` divides every element of the
array and is divisible by every common divisor of the elements; it is
non-negative when the array has two elements or more, and it is the element
itself, whatever its sign, when the array has one element. -/
theorem gcdReduce_correct (x : Int) (rest : List Int) :
    (∀ y ∈ x :: rest, gcdReduce x rest ∣ y) ∧
    (∀ d : Int, (∀ y ∈ x :: rest, d ∣ y) → d ∣ gcdReduce x rest) ∧
    (rest ≠ [] → 0 ≤ gcdReduce x rest) ∧
    (rest = [] → gcdReduce x rest = x) := by
  have key : ∀ (rest : List Int) (x : Int),
      gcdReduce x rest ∣ x ∧ (∀ y ∈ rest, gcdReduce x rest ∣ y) ∧
      (∀ d : Int, d ∣ x → (∀ y ∈ rest, d ∣ y) → d ∣ gcdReduce x rest) ∧
      (0 ≤ x → 0 ≤ gcdReduce x rest) := by
    intro rest
    induction rest with
    | nil =>
      intro x
      exact ⟨dvd_rfl, by simp, fun d hd _ => hd, fun h => h⟩
    | cons y ys ih =>
      intro x
      obtain ⟨h1, h2, h3, h4⟩ := ih (gcd x y)
      have hstep : gcdReduce x (y :: ys) = gcdReduce (gcd x y) ys := rfl
      rw [hstep]
      refine ⟨h1.trans (gcd_dvd x y).1, ?_, ?_, fun _ => h4 (gcd_nonnegative x y)⟩
      · intro z hz
        rcases List.mem_cons.mp hz with rfl | hz
        · exact h1.trans (gcd_dvd x _).2
        · exact h2 z hz
      · intro d hx hall
        exact h3 d (gcd_greatest x y d hx (hall y (List.mem_cons_self _ _)))
          (fun z hz => hall z (List.mem_cons_of_mem _ hz))
  obtain ⟨h1, h2, h3, _⟩ := key rest x
  refine ⟨?_, ?_, ?_, ?_⟩
  · intro y hy
    rcases List.mem_cons.mp hy with rfl | hy
    · exact h1
    · exact h2 y hy
  · intro d hall
    exact h3 d (hall x (List.mem_cons_self _ _)) (fun z hz => hall z (List.mem_cons_of_mem _ hz))
  · intro hne
    cases rest with
    | nil => exact absurd rfl hne
    | cons y ys =>
      have hstep : gcdReduce x (y :: ys) = gcdReduce (gcd x y) ys := rfl
      rw [hstep]
      exact (key ys (gcd x y)).2.2.2 (gcd_nonnegative x y)
  · rintro rfl
    rfl

/-- On an array of 1 to 1000 integers the key `hcf` is answered with status
200 and the result of the `reduce` as data; the request `{"hcf": [12, 18, 24]}`
of the specification has data 6. -/
theorem bfhl_hcf {ε : Type} (getAiAnswer : JsString → Except ε JsString)
    (x : Int) (rest : List Int) (h : rest.length + 1 ≤ 1000) :
    bfhl getAiAnswer (.obj [(lit "hcf", .arr ((x :: rest).map jsInt))]) =
      some (.ok { status := 200,
                  body := { is_success := true, official_email := OFFICIAL_EMAIL,
                            data := some (.num (.int (gcdReduce x rest))), error := none } }) ∧
    gcdReduce 12 [18, 24] = 6 := by
  constructor
  · rw [bfhl, route_hcf, checkArray_ok _ _ _ h]
    rfl
  · simp only [gcdReduce, List.foldl_cons, List.foldl_nil, gcd_eq]
    decide

/-- C10, on the request `{"hcf": [-4]}`: the array passes validation and the
data of the answer is -4, a negative number, where the highest common factor
of the elements is 4; `reduce` returns the only element of a one-element array
without calling `gcd`. -/
theorem bfhl_hcf_single_negative {ε : Type} (getAiAnswer : JsString → Except ε JsString) :
    IsIntArray (.arr [jsInt (-4)]) ∧
    bfhl getAiAnswer (.obj [(lit "hcf", .arr [jsInt (-4)])]) =
      some (.ok { status := 200,
                  body := { is_success := true, official_email := OFFICIAL_EMAIL,
                            data := some (.num (.int (-4))), error := none } }) ∧
    gcd (-4) (-4) = 4 :=
  ⟨⟨_, rfl, by decide, by decide, fun y hy => ⟨-4, List.mem_singleton.mp hy⟩⟩, rfl,
    by rw [gcd_eq]; decide⟩

/-- On an array of 1 to 1000 integers the key `lcm` is answered with status
200 and the result of the `reduce` as data, when the `reduce` returns; the
request `{"lcm": [4, 6]}` of the specification has data 12. -/
theorem bfhl_lcm {ε : Type} (getAiAnswer : JsString → Except ε JsString)
    (x : Int) (rest : List Int) (h : rest.length + 1 ≤ 1000) :
    bfhl getAiAnswer (.obj [(lit "lcm", .arr ((x :: rest).map jsInt))]) =
      (lcmReduce x rest).map (fun v => .ok
        { status := 200,
          body := { is_success := true, official_email := OFFICIAL_EMAIL,
                    data := some (.num v), error := none } }) ∧
    lcmReduce 4 [6] = some (.int 12) := by
  constructor
  · rw [bfhl, route_lcm, checkArray_ok _ _ _ h]
    cases hred : lcmReduce x rest with
    | none => simp only [hred, Option.map_none']
    | some w =>
      simp only [hred, Option.map_some']
      rfl
  · simp only [lcmReduce, List.foldlM, lcmCall, lcm, gcd_eq]
    decide

/-- C11, on the request `{"lcm": [-4]}`: the array passes validation and the
data of the answer is -4, a negative number, where the least common multiple
of the elements is 4; `reduce` returns the only element of a one-element array
without calling `lcm`. -/
theorem bfhl_lcm_single_negative {ε : Type} (getAiAnswer : JsString → Except ε JsString) :
    IsIntArray (.arr [jsInt (-4)]) ∧
    bfhl getAiAnswer (.obj [(lit "lcm", .arr [jsInt (-4)])]) =
      some (.ok { status := 200,
                  body := { is_success := true, official_email := OFFICIAL_EMAIL,
                            data := some (.num (.int (-4))), error := none } }) ∧
    lcm (-4) (-4) = .int 4 :=
  ⟨⟨_, rfl, by decide, by decide, fun y hy => ⟨-4, List.mem_singleton.mp hy⟩⟩, rfl, by
    simp only [lcm, gcd_eq]
    decide⟩

/-- Once a product has overflowed, the next non-zero element keeps the handler
from returning: on `[2 ^ 1023, 3, 5]` the first call of `lcm` gives `Infinity`
and the second never ends. -/
theorem bfhl_lcm_hang {ε : Type} (getAiAnswer : JsString → Except ε JsString) :
    lcm ((2 ^ 256) ^ 3 * 2 ^ 255) 3 = .posInf ∧
    bfhl getAiAnswer
      (.obj [(lit "lcm", .arr [jsInt ((2 ^ 256) ^ 3 * 2 ^ 255), jsInt 3, jsInt 5])]) = none := by
  have hl : lcm ((2 ^ 256) ^ 3 * 2 ^ 255) 3 = .posInf := by
    simp only [lcm, gcd_eq]
    decide!
  refine ⟨hl, ?_⟩
  have hb := (bfhl_lcm getAiAnswer ((2 ^ 256) ^ 3 * 2 ^ 255) [3, 5] (by decide)).1
  have hr : lcmReduce ((2 ^ 256) ^ 3 * 2 ^ 255) [3, 5] = none := by
    simp only [lcmReduce, List.foldlM, lcmCall, hl]
    rfl
  rw [hr] at hb
  exact hb

/-! ## The response envelope -/

/-- The branch `fibonacci` of the handler. -/
theorem route_fibonacci (v : JsVal) :
    route (.obj [(lit "fibonacci", v)]) =
      match v with
      | .num (.int n) =>
        if n < 0 ∨ n > 10000 then
          .reply (badRequest (lit "fibonacci must be an integer between 0 and 10000"))
        else .reply (sendData (.arr ((fibonacciSeries n).map JsVal.num)))
      | _ => .reply (badRequest (lit "fibonacci must be an integer between 0 and 10000")) := rfl

/-- The two 400 responses of the array checks. -/
theorem checkArray_error_cases (name : String) (v : JsVal) (r : Response)
    (h : checkArray name v = .error r) :
    r = badRequest (lit (name ++ " must be a non-empty array of integers")) ∨
    r = badRequest (lit (name ++ " must contain only integers")) := by
  cases v with
  | arr items =>
    cases items with
    | nil => exact Or.inl (Except.error.inj h).symm
    | cons first more =>
      by_cases hl : (first :: more).length > 1000
      · simp only [checkArray, hl, if_true] at h
        exact Or.inl (Except.error.inj h).symm
      · simp only [checkArray, hl, if_false] at h
        split at h
        · cases h
        · exact Or.inr (Except.error.inj h).symm
  | _ => exact Or.inl (Except.error.inj h).symm

/-- Every response that the handler sends by itself on an object is the
success envelope with a defined value as data, or the 400 envelope with one of
eleven messages. -/
theorem route_obj_reply (props : List (JsString × JsVal)) (r : Response)
    (h : route (.obj props) = .reply r) :
    (∃ d, d ≠ JsVal.undefined ∧ r = sendData d) ∨
    ∃ msg, r = badRequest msg ∧
      msg ∈ [lit "Exactly one key is required", lit "Invalid key",
        lit "fibonacci must be an integer between 0 and 10000",
        lit "prime must be a non-empty array of integers", lit "prime must contain only integers",
        lit "lcm must be a non-empty array of integers", lit "lcm must contain only integers",
        lit "hcf must be a non-empty array of integers", lit "hcf must contain only integers",
        lit "AI must be a non-empty string", lit "AI question is too long"] := by
  by_cases hlen : props.length = 1
  · obtain ⟨⟨k, v⟩, rfl⟩ := List.length_eq_one.mp hlen
    by_cases h1 : k = lit "fibonacci"
    · subst h1
      rw [route_fibonacci] at h
      split at h
      · split at h
        · exact Or.inr ⟨_, (Step.reply.inj h).symm, by decide⟩
        · exact Or.inl ⟨_, by simp, (Step.reply.inj h).symm⟩
      · exact Or.inr ⟨_, (Step.reply.inj h).symm, by decide⟩
    by_cases h2 : k = lit "prime"
    · subst h2
      rw [route_prime] at h
      split at h
      · rename_i r' hc
        rcases checkArray_error_cases _ _ _ hc with hr | hr
        · exact Or.inr ⟨_, (Step.reply.inj h).symm.trans hr, by decide⟩
        · exact Or.inr ⟨_, (Step.reply.inj h).symm.trans hr, by decide⟩
      · exact Or.inl ⟨_, by simp, (Step.reply.inj h).symm⟩
    by_cases h3 : k = lit "lcm"
    · subst h3
      rw [route_lcm] at h
      split at h
      · rename_i r' hc
        rcases checkArray_error_cases _ _ _ hc with hr | hr
        · exact Or.inr ⟨_, (Step.reply.inj h).symm.trans hr, by decide⟩
        · exact Or.inr ⟨_, (Step.reply.inj h).symm.trans hr, by decide⟩
      · split at h
        · exact Or.inl ⟨_, by simp, (Step.reply.inj h).symm⟩
        · cases h
    by_cases h4 : k = lit "hcf"
    · subst h4
      rw [route_hcf] at h
      split at h
      · rename_i r' hc
        rcases checkArray_error_cases _ _ _ hc with hr | hr
        · exact Or.inr ⟨_, (Step.reply.inj h).symm.trans hr, by decide⟩
        · exact Or.inr ⟨_, (Step.reply.inj h).symm.trans hr, by decide⟩
      · exact Or.inl ⟨_, by simp, (Step.reply.inj h).symm⟩
    by_cases h5 : k = lit "AI"
    · subst h5
      rw [route_ai] at h
      split at h
      · split at h
        · exact Or.inr ⟨_, (Step.reply.inj h).symm, by decide⟩
        · split at h
          · exact Or.inr ⟨_, (Step.reply.inj h).symm, by decide⟩
          · cases h
      · exact Or.inr ⟨_, (Step.reply.inj h).symm, by decide⟩
    · have hk : ¬ k ∈ ALLOWED_KEYS := by simp [ALLOWED_KEYS, h1, h2, h3, h4, h5]
      simp only [route, List.map_cons, List.map_nil, List.length_singleton, ne_eq,
        not_true_eq_false, if_false, List.headD_cons, hk, not_false_eq_true, if_true] at h
      exact Or.inr ⟨_, (Step.reply.inj h).symm, by decide⟩
  · have hk : (props.map Prod.fst).length ≠ 1 := by simpa using hlen
    simp only [route, hk, ne_eq, not_false_eq_true, if_true] at h
    exact Or.inr ⟨_, (Step.reply.inj h).symm, by decide⟩

/-- The 400 envelope is well formed. -/
theorem wellFormed_badRequest (msg : JsString) : WellFormed (badRequest msg) := by
  simp [WellFormed, badRequest]

/-- The success envelope is well formed when the data is a defined value. -/
theorem wellFormed_sendData (d : JsVal) (h : d ≠ .undefined) :
    WellFormed (sendData d) ∧ (sendData d).body.data = some d := by
  cases d <;> simp [WellFormed, sendData] at h ⊢

/-- The envelope of the final error handler is well formed. -/
theorem wellFormed_errorHandler (err : JsError) : WellFormed (errorHandler err) := by
  rcases err with ⟨status, message⟩
  cases message <;> simp [WellFormed, errorHandler, jsOr]

/-- Every response that the handler sends is a well-formed envelope, and its
data is a defined value when it is a success. -/
theorem bfhl_reply_wellFormed {ε : Type} (getAiAnswer : JsString → Except ε JsString)
    (body : JsVal) (r : Response) (h : bfhl getAiAnswer body = some (.ok r)) :
    WellFormed r ∧ (r.body.is_success = true → ∃ d, d ≠ JsVal.undefined ∧ r.body.data = some d) := by
  have hsend : ∀ d, d ≠ JsVal.undefined →
      WellFormed (sendData d) ∧
      ((sendData d).body.is_success = true →
        ∃ d', d' ≠ JsVal.undefined ∧ (sendData d).body.data = some d') :=
    fun d hd => ⟨(wellFormed_sendData d hd).1, fun _ => ⟨d, hd, (wellFormed_sendData d hd).2⟩⟩
  have hbad : ∀ msg, WellFormed (badRequest msg) ∧
      ((badRequest msg).body.is_success = true →
        ∃ d', d' ≠ JsVal.undefined ∧ (badRequest msg).body.data = some d') :=
    fun msg => ⟨wellFormed_badRequest msg, fun hs => by simp [badRequest] at hs⟩
  rw [bfhl] at h
  cases hroute : route body with
  | reply r' =>
    simp only [hroute, Option.some.injEq, Except.ok.injEq] at h
    subst h
    cases body with
    | obj props =>
      rcases route_obj_reply props r' hroute with ⟨d, hd, rfl⟩ | ⟨msg, rfl, _⟩
      · exact hsend d hd
      · exact hbad msg
    | _ =>
      obtain rfl : badRequest (lit "Request body must be a JSON object") = r' :=
        Step.reply.inj hroute
      exact hbad _
  | askAi q =>
    simp only [hroute] at h
    cases hq : getAiAnswer q with
    | ok answer =>
      simp only [hq, Option.some.injEq, Except.ok.injEq] at h
      subst h
      exact hsend _ (by simp)
    | error e => simp [hq] at h
  | hang => simp [hroute] at h

/-- C12: every response that the service produces for a `POST /bfhl` request,
sent by the handler or by the final error handler, carries an envelope with
exactly one of `data` and `error`, with `is_success` true exactly when `data`
is present and false exactly when `error` is present, and with the fixed
`official_email`; a success envelope carries a defined value as data; the
envelope of the final error handler has this form for every error. -/
theorem serve_wellFormed (env : AiEnv) (upstream : AiRequest → Upstream) (body : JsVal)
    (r : Response) (h : serve env upstream body = some r) :
    WellFormed r ∧
    (r.body.is_success = true → ∃ d, d ≠ JsVal.undefined ∧ r.body.data = some d) ∧
    ∀ err : JsError, WellFormed (errorHandler err) := by
  refine ⟨?_, ?_, wellFormed_errorHandler⟩
  · rw [serve] at h
    cases hb : bfhl (getAiAnswer env upstream) body with
    | none => simp [hb] at h
    | some res =>
      cases res with
      | ok r' =>
        simp only [hb, Option.some.injEq] at h
        subst h
        exact (bfhl_reply_wellFormed _ _ _ hb).1
      | error e =>
        simp only [hb, Option.some.injEq] at h
        subst h
        exact wellFormed_errorHandler e
  · rw [serve] at h
    cases hb : bfhl (getAiAnswer env upstream) body with
    | none => simp [hb] at h
    | some res =>
      cases res with
      | ok r' =>
        simp only [hb, Option.some.injEq] at h
        subst h
        exact (bfhl_reply_wellFormed _ _ _ hb).2
      | error e =>
        simp only [hb, Option.some.injEq] at h
        subst h
        intro hs
        simp [errorHandler] at hs

/-- C12, on the request `{"hcf": [12, 18, 24]}` with no credential set. -/
theorem serve_wellFormed_witness :
    WellFormed (sendData (.num (.int 6))) ∧
    ((sendData (.num (.int 6))).body.is_success = true →
      ∃ d, d ≠ JsVal.undefined ∧ (sendData (.num (.int 6))).body.data = some d) ∧
    ∀ err : JsError, WellFormed (errorHandler err) :=
  serve_wellFormed
    { GEMINI_API_KEY := none, GOOGLE_API_KEY := none, GEMINI_MODEL := none }
    (fun _ => .rejected none) (.obj [(lit "hcf", .arr [jsInt 12, jsInt 18, jsInt 24])])
    (sendData (.num (.int 6))) (by
      have h := (bfhl_hcf (getAiAnswer
        { GEMINI_API_KEY := none, GOOGLE_API_KEY := none, GEMINI_MODEL := none }
        (fun _ => .rejected none)) 12 [18, 24] (by decide))
      have h1 : bfhl (getAiAnswer
          { GEMINI_API_KEY := none, GOOGLE_API_KEY := none, GEMINI_MODEL := none }
          (fun _ => .rejected none))
          (.obj [(lit "hcf", .arr [jsInt 12, jsInt 18, jsInt 24])]) =
          some (.ok (sendData (.num (.int 6)))) := h.1.trans (by rw [h.2]; rfl)
      rw [serve, h1])

/-! ## The shape check -/

/-- C13: a body that is not a JSON object (`undefined`, `null`, a boolean, a
number, a string or an array, whatever it holds) is answered with status 400
and the error "Request body must be a JSON object"; on a body that is a JSON
object no response of the handler carries this error. -/
theorem bfhl_shape_check {ε : Type} (getAiAnswer : JsString → Except ε JsString)
    (body : JsVal) :
    ((∀ props, body ≠ .obj props) →
      bfhl getAiAnswer body =
        some (.ok { status := 400,
                    body := { is_success := false, official_email := OFFICIAL_EMAIL,
                              data := none,
                              error := some (lit "Request body must be a JSON object") } })) ∧
    (∀ props, body = .obj props → ∀ r, bfhl getAiAnswer body = some (.ok r) →
      r.body.error ≠ some (lit "Request body must be a JSON object")) := by
  constructor
  · intro h
    cases body with
    | obj props => exact absurd rfl (h props)
    | _ => rfl
  · rintro props rfl r h
    rw [bfhl] at h
    cases hroute : route (.obj props) with
    | reply r' =>
      simp only [hroute, Option.some.injEq, Except.ok.injEq] at h
      subst h
      rcases route_obj_reply props r' hroute with ⟨d, hd, rfl⟩ | ⟨msg, rfl, hmem⟩
      · simp [sendData]
      · have hall : ∀ m ∈ [lit "Exactly one key is required", lit "Invalid key",
            lit "fibonacci must be an integer between 0 and 10000",
            lit "prime must be a non-empty array of integers",
            lit "prime must contain only integers",
            lit "lcm must be a non-empty array of integers", lit "lcm must contain only integers",
            lit "hcf must be a non-empty array of integers", lit "hcf must contain only integers",
            lit "AI must be a non-empty string", lit "AI question is too long"],
            m ≠ lit "Request body must be a JSON object" := by decide
        simp only [badRequest, ne_eq, Option.some.injEq]
        exact hall msg hmem
    | askAi q =>
      simp only [hroute] at h
      cases hq : getAiAnswer q with
      | ok answer =>
        simp only [hq, Option.some.injEq, Except.ok.injEq] at h
        subst h
        simp [sendData]
      | error e => simp [hq] at h
    | hang => simp [hroute] at h

/-- C13, on the bodies `null`, `[]`, `0`, `""`, `false` and on an absent body,
all rejected, and on the object `{}`, answered with another error. -/
theorem bfhl_shape_check_witness :
    (∀ body ∈ [JsVal.null, .arr [], .num (.int 0), .str [], .bool false, .undefined],
      bfhl (fun _ => (Except.error () : Except Unit JsString)) body =
        some (.ok { status := 400,
                    body := { is_success := false, official_email := OFFICIAL_EMAIL,
                              data := none,
                              error := some (lit "Request body must be a JSON object") } })) ∧
    (badRequest (lit "Exactly one key is required")).body.error ≠
      some (lit "Request body must be a JSON object") :=
  ⟨fun body hb => (bfhl_shape_check _ body).1 (by
      intro props hp
      subst hp
      simp at hb),
   (bfhl_shape_check (fun _ => (Except.error () : Except Unit JsString)) (.obj [])).2 [] rfl _ rfl⟩

/-! ## The AI delegate -/

/-- With a credential set, `getAiAnswer` makes the call and goes through the
`try` block and, on a throw, through the `catch` block. -/
theorem getAiAnswer_of_key (env : AiEnv) (upstream : AiRequest → Upstream)
    (question : JsString) (request : AiRequest) (h : aiRequest env question = .ok request) :
    getAiAnswer env upstream question =
      match tryBlock (upstream request) with
      | .ok answer => .ok answer
      | .error thrown => .error (catchBlock thrown) := by
  rw [getAiAnswer, h]

/-- A reply without text, or with a text that is empty after trimming, makes
the `try` block throw the error "Empty AI response" with status 502, and the
`catch` block around it replaces that error: `getAiAnswer` fails with status
500 and the message "AI request failed". -/
theorem getAiAnswer_empty (env : AiEnv) (upstream : AiRequest → Upstream)
    (question : JsString) (request : AiRequest) (text : JsVal)
    (hreq : aiRequest env question = .ok request) (hup : upstream request = .resolved text)
    (htext : text = .undefined ∨ text = .null ∨ ∃ t, text = .str t ∧ trim t = []) :
    tryBlock (upstream request) =
      .error (.error { status := .num (.int 502), message := lit "Empty AI response" }) ∧
    getAiAnswer env upstream question =
      .error { status := .num (.int 500), message := lit "AI request failed" } := by
  have ht : tryBlock (upstream request) =
      .error (.error { status := .num (.int 502), message := lit "Empty AI response" }) := by
    rw [hup]
    rcases htext with rfl | rfl | ⟨t, rfl, ht⟩
    · rfl
    · rfl
    · simp [tryBlock, ht]
  refine ⟨ht, ?_⟩
  rw [getAiAnswer_of_key env upstream question request hreq, ht]
  rfl

/-- C14, on a reply whose text is the empty string, with the credential `"k"`
and the question `"hi"`: the `try` block throws the error with status 502 and
the message "Empty AI response", but `getAiAnswer` fails with status 500 and
the message "AI request failed", and the service answers with status 500. -/
theorem getAiAnswer_empty_reply :
    tryBlock (.resolved (.str [])) =
      .error (.error { status := .num (.int 502), message := lit "Empty AI response" }) ∧
    getAiAnswer { GEMINI_API_KEY := some (lit "k"), GOOGLE_API_KEY := none, GEMINI_MODEL := none }
        (fun _ => .resolved (.str [])) (lit "hi") =
      .error { status := .num (.int 500), message := lit "AI request failed" } ∧
    serve { GEMINI_API_KEY := some (lit "k"), GOOGLE_API_KEY := none, GEMINI_MODEL := none }
        (fun _ => .resolved (.str [])) (.obj [(lit "AI", .str (lit "hi"))]) =
      some { status := 500,
             body := { is_success := false, official_email := OFFICIAL_EMAIL, data := none,
                       error := some (lit "AI request failed") } } :=
  ⟨rfl, rfl, rfl⟩

/-- C15: when neither `GEMINI_API_KEY` nor `GOOGLE_API_KEY` is set (or both are
empty), `getAiAnswer` prepares no call and fails, for every question and every
behaviour of the upstream, with status 500 and the message "GEMINI_API_KEY (or
GOOGLE_API_KEY) is not configured"; a valid `AI` request is then answered with
status 500 and that message as error. -/
theorem getAiAnswer_no_key (env : AiEnv)
    (h1 : env.GEMINI_API_KEY = none ∨ env.GEMINI_API_KEY = some [])
    (h2 : env.GOOGLE_API_KEY = none ∨ env.GOOGLE_API_KEY = some [])
    (upstream : AiRequest → Upstream) (question : JsString) :
    aiRequest env question =
      .error { status := .num (.int 500),
               message := lit "GEMINI_API_KEY (or GOOGLE_API_KEY) is not configured" } ∧
    getAiAnswer env upstream question =
      .error { status := .num (.int 500),
               message := lit "GEMINI_API_KEY (or GOOGLE_API_KEY) is not configured" } ∧
    ∀ v, IsQuestion v →
      serve env upstream (.obj [(lit "AI", v)]) =
        some { status := 500,
               body := { is_success := false, official_email := OFFICIAL_EMAIL, data := none,
                         error := some (lit
                           "GEMINI_API_KEY (or GOOGLE_API_KEY) is not configured") } } := by
  have hreq : ∀ q, aiRequest env q =
      .error { status := .num (.int 500),
               message := lit "GEMINI_API_KEY (or GOOGLE_API_KEY) is not configured" } := by
    intro q
    rcases h1 with h1 | h1 <;> rcases h2 with h2 | h2 <;> simp [aiRequest, jsOr, h1, h2]
  have hget : ∀ q, getAiAnswer env upstream q =
      .error { status := .num (.int 500),
               message := lit "GEMINI_API_KEY (or GOOGLE_API_KEY) is not configured" } := by
    intro q
    rw [getAiAnswer, hreq]
  refine ⟨hreq question, hget question, ?_⟩
  rintro v ⟨s, rfl, hs1, hs2⟩
  have hroute : route (.obj [(lit "AI", .str s)]) = .askAi (trim s) := by
    rw [route_ai]
    simp only
    rw [if_neg (by omega), if_neg (by omega)]
  rw [serve, bfhl, hroute]
  simp only [hget]
  rfl

/-- C15, with no variable set, an upstream that would answer "yes" and the
request `{"AI": "hi"}`. -/
theorem getAiAnswer_no_key_witness :
    getAiAnswer { GEMINI_API_KEY := none, GOOGLE_API_KEY := none, GEMINI_MODEL := none }
        (fun _ => .resolved (.str (lit "yes"))) (lit "hi") =
      .error { status := .num (.int 500),
               message := lit "GEMINI_API_KEY (or GOOGLE_API_KEY) is not configured" } ∧
    serve { GEMINI_API_KEY := none, GOOGLE_API_KEY := none, GEMINI_MODEL := none }
        (fun _ => .resolved (.str (lit "yes"))) (.obj [(lit "AI", .str (lit "hi"))]) =
      some { status := 500,
             body := { is_success := false, official_email := OFFICIAL_EMAIL, data := none,
                       error := some (lit
                         "GEMINI_API_KEY (or GOOGLE_API_KEY) is not configured") } } :=
  ⟨(getAiAnswer_no_key _ (Or.inl rfl) (Or.inl rfl) _ _).2.1,
   (getAiAnswer_no_key _ (Or.inl rfl) (Or.inl rfl) _ (lit "hi")).2.2 _
     ⟨lit "hi", rfl, by decide, by decide⟩⟩

/-- The class `[\w-]` of the source is the set of characters of the
specification. -/
theorem isWordOrHyphen_iff (c : Nat) : isWordOrHyphen c = true ↔ IsAnswerChar c := by
  have ha : 'a'.toNat = 0x61 := rfl
  have hz : 'z'.toNat = 0x7A := rfl
  have hA : 'A'.toNat = 0x41 := rfl
  have hZ : 'Z'.toNat = 0x5A := rfl
  have h0 : '0'.toNat = 0x30 := rfl
  have h9 : '9'.toNat = 0x39 := rfl
  have hu : '_'.toNat = 0x5F := rfl
  have hh : '-'.toNat = 0x2D := rfl
  simp only [isWordOrHyphen, IsAnswerChar, ha, hz, hA, hZ, h0, h9, hu, hh, decide_eq_true_eq]
  omega

/-- No character of the class `[\w-]` is white space. -/
theorem not_isWhite_of_isWordOrHyphen (c : Nat) (h : isWordOrHyphen c = true) :
    isWhite c = false := by
  simp only [isWordOrHyphen, decide_eq_true_eq] at h
  simp only [isWhite, decide_eq_false_iff_not]
  omega

/-- The text before the first white space character: the text is this token
followed by nothing or by a white space character, and the token holds no white
space. -/
theorem firstToken_spec (content : JsString) :
    ∃ rest, content = firstToken content ++ rest ∧
      (∀ c ∈ firstToken content, isWhite c = false) ∧
      (rest = [] ∨ ∃ c rest', rest = c :: rest' ∧ isWhite c = true) := by
  induction content with
  | nil => exact ⟨[], rfl, by simp [firstToken], Or.inl rfl⟩
  | cons a l ih =>
    by_cases ha : isWhite a = true
    · refine ⟨a :: l, ?_, ?_, Or.inr ⟨a, l, rfl, ha⟩⟩
      · simp [firstToken, List.takeWhile, ha]
      · simp [firstToken, List.takeWhile, ha]
    · obtain ⟨rest, h1, h2, h3⟩ := ih
      have hf : firstToken (a :: l) = a :: firstToken l := by
        simp [firstToken, List.takeWhile, ha]
      refine ⟨rest, ?_, ?_, h3⟩
      · rw [hf, List.cons_append, ← h1]
      · rw [hf]
        intro c hc
        rcases List.mem_cons.mp hc with rfl | hc
        · simpa using ha
        · exact h2 c hc

/-- A trimmed text that is not empty does not start with white space, so its
first token is not empty. -/
theorem firstToken_trim_ne_nil (t : JsString) (h : trim t ≠ []) : firstToken (trim t) ≠ [] := by
  have hhead : ∀ l : List Nat, l.dropWhile isWhite ≠ [] →
      ∃ a r, l.dropWhile isWhite = a :: r ∧ isWhite a = false := by
    intro l
    induction l with
    | nil => intro h; exact absurd rfl h
    | cons a l ih =>
      intro h
      by_cases ha : isWhite a = true
      · simp only [List.dropWhile, ha] at h ⊢
        exact ih h
      · exact ⟨a, l, by simp [List.dropWhile, ha], by simpa using ha⟩
  have hlast : ∀ l : List Nat, (l.reverse.dropWhile isWhite).reverse ≠ [] →
      ∀ a r, l = a :: r → isWhite a = false →
      ∃ r', (l.reverse.dropWhile isWhite).reverse = a :: r' := by
    intro l hne a r hl ha
    subst hl
    have hsuf : (List.dropWhile isWhite (a :: r).reverse).reverse <+: (a :: r) := by
      have := List.dropWhile_suffix (l := (a :: r).reverse) isWhite
      have h2 := List.reverse_prefix.mpr this
      simpa using h2
    obtain ⟨u, hu⟩ := hsuf
    cases hx : (List.dropWhile isWhite (a :: r).reverse).reverse with
    | nil => exact absurd hx hne
    | cons b r' =>
      rw [hx] at hu
      simp only [List.cons_append, List.cons.injEq] at hu
      exact ⟨r', by rw [hu.1]⟩
  have hd : t.dropWhile isWhite ≠ [] := by
    intro h0
    apply h
    simp [trim, h0]
  obtain ⟨a, r, har, ha⟩ := hhead t hd
  obtain ⟨r', hr'⟩ := hlast (t.dropWhile isWhite) h a r har ha
  have : trim t = a :: r' := hr'
  rw [this]
  simp [firstToken, List.takeWhile, ha]

/-- C16: when the upstream returns a text that is not empty after trimming,
`getAiAnswer` returns an answer: the first white-space-delimited token of the
trimmed text (the text up to its first white space character, never empty)
with exactly its letters `a`-`z` and `A`-`Z`, digits `0`-`9`, underscores and
hyphens kept, in their order; the answer holds no white space and no other
character. -/
theorem getAiAnswer_answer (env : AiEnv) (upstream : AiRequest → Upstream)
    (question : JsString) (request : AiRequest) (t : JsString)
    (hreq : aiRequest env question = .ok request)
    (hup : upstream request = .resolved (.str t)) (hne : trim t ≠ []) :
    ∃ token rest answer,
      trim t = token ++ rest ∧ token ≠ [] ∧ (∀ c ∈ token, isWhite c = false) ∧
      (rest = [] ∨ ∃ c rest', rest = c :: rest' ∧ isWhite c = true) ∧
      getAiAnswer env upstream question = .ok answer ∧
      answer = token.filter (fun c => decide (IsAnswerChar c)) ∧
      ∀ c ∈ answer, IsAnswerChar c ∧ isWhite c = false := by
  obtain ⟨rest, h1, h2, h3⟩ := firstToken_spec (trim t)
  have hfilter : stripNonWord (firstToken (trim t)) =
      (firstToken (trim t)).filter (fun c => decide (IsAnswerChar c)) := by
    rw [stripNonWord]
    apply List.filter_congr
    intro c _
    rw [Bool.eq_iff_iff, isWordOrHyphen_iff, decide_eq_true_iff]
  refine ⟨firstToken (trim t), rest, stripNonWord (firstToken (trim t)), h1,
    firstToken_trim_ne_nil t hne, h2, h3, ?_, hfilter, ?_⟩
  · rw [getAiAnswer_of_key env upstream question request hreq, hup]
    have hlen : ¬ (trim t).length = 0 := by
      intro h0
      exact hne (List.length_eq_zero.mp h0)
    simp [tryBlock, hlen]
  · intro c hc
    have hw : isWordOrHyphen c = true := (List.mem_filter.mp hc).2
    exact ⟨(isWordOrHyphen_iff c).mp hw, not_isWhite_of_isWordOrHyphen c hw⟩

/-- C16, on the text `" Hello, world!"` followed by a line feed, with the
credential `"k"`: the answer is `"Hello"`. -/
theorem getAiAnswer_answer_witness :
    (∃ token rest answer,
      trim (lit " Hello, world!\n") = token ++ rest ∧ token ≠ [] ∧
      (∀ c ∈ token, isWhite c = false) ∧
      (rest = [] ∨ ∃ c rest', rest = c :: rest' ∧ isWhite c = true) ∧
      getAiAnswer { GEMINI_API_KEY := some (lit "k"), GOOGLE_API_KEY := none, GEMINI_MODEL := none }
        (fun _ => .resolved (.str (lit " Hello, world!\n"))) (lit "hi") = .ok answer ∧
      answer = token.filter (fun c => decide (IsAnswerChar c)) ∧
      ∀ c ∈ answer, IsAnswerChar c ∧ isWhite c = false) ∧
    getAiAnswer { GEMINI_API_KEY := some (lit "k"), GOOGLE_API_KEY := none, GEMINI_MODEL := none }
        (fun _ => .resolved (.str (lit " Hello, world!\n"))) (lit "hi") = .ok (lit "Hello") :=
  ⟨getAiAnswer_answer _ _ (lit "hi") _ (lit " Hello, world!\n") rfl rfl (by decide), rfl⟩

/-- When the call of the upstream fails and the error message of the upstream
can be made a string, `getAiAnswer` fails with an error whose status is the
status reported by the upstream, and 500 when the upstream reported none (no
response: network failure or timeout), and whose message is the error message
of the upstream when that is a non-empty string, its string form when it is
another truthy value, and "AI request failed" when it is missing or falsy. -/
theorem getAiAnswer_upstream_failure (env : AiEnv) (upstream : AiRequest → Upstream)
    (question : JsString) (request : AiRequest) (response : Option UpstreamResponse)
    (hreq : aiRequest env question = .ok request)
    (hup : upstream request = .rejected response) :
    ∃ err, getAiAnswer env upstream question = .error err ∧
      (response = none →
        err.status = .num (.int 500) ∧ err.message = lit "AI request failed") ∧
      (∀ r, response = some r →
        (∀ c m, r.message = .text (c :: m) → err.message = c :: m) ∧
        (∀ m, r.message = .converted m → err.message = m) ∧
        (r.message = .falsy ∨ r.message = .text [] → err.message = lit "AI request failed") ∧
        ((∀ e, r.message ≠ .unconvertible e) →
          (r.status ≠ 0 → err.status = .num (.int r.status)) ∧
          (r.status = 0 → err.status = .num (.int 500))) ∧
        (∀ e, r.message = .unconvertible e →
          err.status = .undefined ∧ err.message = e)) := by
  refine ⟨catchBlock (.axios response), ?_, ?_, ?_⟩
  · rw [getAiAnswer_of_key env upstream question request hreq, hup]
    rfl
  · rintro rfl
    exact ⟨rfl, rfl⟩
  · rintro ⟨status, message⟩ rfl
    refine ⟨?_, ?_, ?_, ?_, ?_⟩
    · intro c m hm
      simp only at hm
      subst hm
      rfl
    · intro m hm
      simp only at hm
      subst hm
      rfl
    · intro hm
      simp only at hm
      rcases hm with rfl | rfl <;> rfl
    · intro hne
      cases message with
      | unconvertible e => exact absurd rfl (hne e)
      | falsy =>
        constructor
        · intro hs
          simp only [catchBlock, Option.map_some']
          rw [if_neg hs]
        · intro hs
          simp only [catchBlock, Option.map_some']
          rw [if_pos hs]
      | converted m =>
        constructor
        · intro hs
          simp only [catchBlock, Option.map_some']
          rw [if_neg hs]
        · intro hs
          simp only [catchBlock, Option.map_some']
          rw [if_pos hs]
      | text t =>
        cases t with
        | nil =>
          constructor
          · intro hs
            simp only [catchBlock, Option.map_some']
            rw [if_neg hs]
          · intro hs
            simp only [catchBlock, Option.map_some']
            rw [if_pos hs]
        | cons c m =>
          constructor
          · intro hs
            simp only [catchBlock, Option.map_some']
            rw [if_neg hs]
          · intro hs
            simp only [catchBlock, Option.map_some']
            rw [if_pos hs]
    · intro e hm
      simp only at hm
      subst hm
      exact ⟨rfl, rfl⟩

/-- The failures of the upstream on which the message can be made a string:
status 429 with the message "quota", status 400 with the number 42 as message
(made "42"), status 503 with an empty message, and no response at all. -/
theorem getAiAnswer_upstream_failure_examples :
    getAiAnswer { GEMINI_API_KEY := some (lit "k"), GOOGLE_API_KEY := none, GEMINI_MODEL := none }
        (fun _ => .rejected (some { status := 429, message := .text (lit "quota") }))
        (lit "hi") =
      .error { status := .num (.int 429), message := lit "quota" } ∧
    getAiAnswer { GEMINI_API_KEY := some (lit "k"), GOOGLE_API_KEY := none, GEMINI_MODEL := none }
        (fun _ => .rejected (some { status := 400, message := .converted (lit "42") }))
        (lit "hi") =
      .error { status := .num (.int 400), message := lit "42" } ∧
    getAiAnswer { GEMINI_API_KEY := some (lit "k"), GOOGLE_API_KEY := none, GEMINI_MODEL := none }
        (fun _ => .rejected (some { status := 503, message := .text [] }))
        (lit "hi") =
      .error { status := .num (.int 503), message := lit "AI request failed" } ∧
    getAiAnswer { GEMINI_API_KEY := some (lit "k"), GOOGLE_API_KEY := none, GEMINI_MODEL := none }
        (fun _ => .rejected none) (lit "hi") =
      .error { status := .num (.int 500), message := lit "AI request failed" } :=
  ⟨rfl, rfl, rfl, rfl⟩

/-- C17, on a reply of the upstream with status 400 and the body
`{"error": {"message": {"toString": 1}}}`, with the credential `"k"`: the
message is an object that cannot be made a string, `new Error(message)` throws
a `TypeError` inside the `catch` block, and `getAiAnswer` fails with that
`TypeError`, which has no status and not the message of the upstream; the
service answers with status 500, not with the status 400 of the upstream. -/
theorem getAiAnswer_unconvertible_message :
    getAiAnswer { GEMINI_API_KEY := some (lit "k"), GOOGLE_API_KEY := none, GEMINI_MODEL := none }
        (fun _ => .rejected (some
          { status := 400,
            message := .unconvertible (lit "Cannot convert object to primitive value") }))
        (lit "hi") =
      .error { status := .undefined,
               message := lit "Cannot convert object to primitive value" } ∧
    serve { GEMINI_API_KEY := some (lit "k"), GOOGLE_API_KEY := none, GEMINI_MODEL := none }
        (fun _ => .rejected (some
          { status := 400,
            message := .unconvertible (lit "Cannot convert object to primitive value") }))
        (.obj [(lit "AI", .str (lit "hi"))]) =
      some { status := 500,
             body := { is_success := false, official_email := OFFICIAL_EMAIL, data := none,
                       error := some (lit "Cannot convert object to primitive value") } } :=
  ⟨rfl, rfl⟩

/-! ## The final error handler -/

/-- C18 as stated fails: the error field is not always the message of the
error (an error with an empty message gets "Internal Server Error"), and the
status is not the status of the error for every integer status (an error with
status 0 gets 500). -/
theorem errorHandler_counterexample :
    (errorHandler { status := .num (.int 503), message := [] }).body.error =
      some (lit "Internal Server Error") ∧
    (errorHandler { status := .num (.int 0), message := lit "boom" }).status = 500 ∧
    ¬ (∀ err : JsError, (errorHandler err).body.error = some err.message ∧
        ∀ i : Int, err.status = .num (.int i) → (errorHandler err).status = i) := by
  refine ⟨rfl, rfl, fun h => ?_⟩
  have h0 := (h { status := .num (.int 0), message := lit "boom" }).2 0 rfl
  exact absurd h0 (by decide)

/-- C18, amended: for every error that reaches the final error handler the
response is a failure envelope whose error field is the message of the error
when that message is not empty and "Internal Server Error" when it is, and
whose status is the status of the error when that status is an integer other
than 0, and 500 in every other case. -/
theorem errorHandler_correct (err : JsError) :
    (errorHandler err).body.is_success = false ∧
    (errorHandler err).body.official_email = OFFICIAL_EMAIL ∧
    (errorHandler err).body.data = none ∧
    (err.message ≠ [] → (errorHandler err).body.error = some err.message) ∧
    (err.message = [] → (errorHandler err).body.error = some (lit "Internal Server Error")) ∧
    (∀ i : Int, err.status = .num (.int i) → i ≠ 0 → (errorHandler err).status = i) ∧
    ((¬ ∃ i : Int, err.status = .num (.int i) ∧ i ≠ 0) → (errorHandler err).status = 500) := by
  rcases err with ⟨status, message⟩
  refine ⟨rfl, rfl, rfl, ?_, ?_, ?_, ?_⟩
  · intro h
    cases message with
    | nil => exact absurd rfl h
    | cons c m => rfl
  · intro h
    simp only at h
    subst h
    rfl
  · intro i hi h0
    simp only at hi
    subst hi
    simp only [errorHandler]
    rw [if_neg h0]
  · intro h
    cases status with
    | num x =>
      cases x with
      | int i =>
        have hi : i = 0 := by
          by_contra hne
          exact h ⟨i, rfl, hne⟩
        subst hi
        rfl
      | _ => rfl
    | _ => rfl

/-- C18, amended, on an error with status 502 and the message "boom" and on an
error without status. -/
theorem errorHandler_correct_witness :
    (errorHandler { status := .num (.int 502), message := lit "boom" }).body.error =
      some (lit "boom") ∧
    (errorHandler { status := .num (.int 502), message := lit "boom" }).status = 502 ∧
    (errorHandler { status := .undefined, message := lit "boom" }).status = 500 :=
  ⟨(errorHandler_correct _).2.2.2.1 (by decide),
   (errorHandler_correct _).2.2.2.2.2.1 502 rfl (by decide),
   (errorHandler_correct { status := .undefined, message := lit "boom" }).2.2.2.2.2.2 (by
      rintro ⟨i, hi, _⟩
      cases hi)⟩

/-! ## Termination of `gcd` -/

/-- The remainder is smaller in magnitude than a divisor other than 0. -/
theorem natAbs_tmod_lt (x y : Int) (h : y ≠ 0) : (x.tmod y).natAbs < y.natAbs := by
  have hmod : (x.tmod y).natAbs = x.natAbs % y.natAbs := by
    cases x <;> cases y <;>
      simp [Int.tmod, Int.natAbs_ofNat, Int.natAbs_neg, Int.natAbs_negSucc] <;> norm_cast
  rw [hmod]
  exact Nat.mod_lt _ (Int.natAbs_pos.mpr h)

/-- The counted loop ends with the result of the loop as soon as the count
exceeds the magnitude of `y`. -/
theorem gcdSteps_eq (f : Nat) (x y : Int) (h : y.natAbs < f) :
    gcdSteps f x y = some (gcdLoop x y) := by
  induction f generalizing x y with
  | zero => omega
  | succ f ih =>
    rw [gcdSteps, gcdLoop]
    split_ifs with h0
    · rfl
    · exact ih y (x.tmod y) (by have := natAbs_tmod_lt x y h0; omega)

/-- C19: for all integers `a` and `b` the loop of `gcd` ends, after at most
`|b| + 1` tests of its condition, with the result of `gcd(a, b)`; the loop
starts with non-negative `x` and `y`, and whenever `x` is non-negative and `y`
is positive the next value `x % y` of `y` is non-negative and smaller than `y`
(and the next value of `x` is `y`); the remainder is only taken when `y` is
not 0. -/
theorem gcd_terminates (a b : Int) :
    gcdSteps (b.natAbs + 1) |a| |b| = some (gcd a b) ∧
    0 ≤ |a| ∧ 0 ≤ |b| ∧
    ∀ x y : Int, 0 ≤ x → 0 < y → 0 ≤ x.tmod y ∧ x.tmod y < y := by
  refine ⟨?_, abs_nonneg a, abs_nonneg b, fun x y hx hy =>
    ⟨Int.tmod_nonneg y hx, Int.tmod_lt_of_pos x hy⟩⟩
  rw [gcd]
  exact gcdSteps_eq _ _ _ (by rw [Int.natAbs_abs]; omega)

/-- C19, on `gcd(12, -18)`: the loop ends within 19 tests, with the result 6. -/
theorem gcd_terminates_witness :
    gcdSteps ((-18 : Int).natAbs + 1) |12| |(-18)| = some (gcd 12 (-18)) ∧
    gcdSteps 19 12 18 = some 6 :=
  ⟨(gcd_terminates 12 (-18)).1, by decide⟩

/-! ## Exactness of the Fibonacci series -/

/-- Started on two consecutive Fibonacci numbers, the exact loop returns the
Fibonacci numbers that follow. -/
theorem fibExactLoop_fib (k i : Nat) :
    fibExactLoop k (Nat.fib i) (Nat.fib (i + 1)) =
      (List.range' i k).map (fun j => (Nat.fib j : Int)) := by
  induction k generalizing i with
  | zero => rfl
  | succ k ih =>
    have hadd : (Nat.fib i : Int) + (Nat.fib (i + 1) : Int) = (Nat.fib (i + 1 + 1) : Int) := by
      rw [Nat.fib_add_two]
      push_cast
      ring
    rw [fibExactLoop, hadd, ih (i + 1)]
    rfl

/-- With exact arithmetic the series is the list of the Fibonacci numbers. -/
theorem fibonacciExact_eq (n : Int) :
    fibonacciExact n = (List.range n.toNat).map (fun j => (Nat.fib j : Int)) := by
  have h := fibExactLoop_fib n.toNat 0
  rw [List.range_eq_range']
  simpa [fibonacciExact] using h

/-- C20: with exact integer arithmetic every term of `fibonacciSeries(n)` is at
most `2 ^ 53 - 1` for `0 ≤ n ≤ 79`, and the last term for `n = 80` is the
Fibonacci number of index 79, 14472334024676221, which exceeds `2 ^ 53 - 1`;
the series computed on doubles is the exact one for every `n` from 0 to 79 and
differs from it for every `n` from 80 on. -/
theorem fibonacciExact_bound :
    (∀ n : Int, 0 ≤ n → n ≤ 79 → ∀ t ∈ fibonacciExact n, t ≤ 2 ^ 53 - 1) ∧
    (fibonacciExact 80).getLast? = some 14472334024676221 ∧
    (Nat.fib 79 : Int) = 14472334024676221 ∧
    (2 ^ 53 - 1 : Int) < 14472334024676221 ∧
    (∀ n : Int, 0 ≤ n → n ≤ 79 → fibonacciSeries n = (fibonacciExact n).map JsNum.int) ∧
    (∀ n : Int, 80 ≤ n → fibonacciSeries n ≠ (fibonacciExact n).map JsNum.int) := by
  have h78 : Nat.fib 78 = 8944394323791464 := by decide
  have h79 : Nat.fib 79 = 14472334024676221 := by decide
  refine ⟨?_, ?_, ?_, by decide, ?_, ?_⟩
  · intro n h0 hn t ht
    rw [fibonacciExact_eq] at ht
    obtain ⟨j, hj, rfl⟩ := List.mem_map.mp ht
    have hj' : j ≤ 78 := by
      have := List.mem_range.mp hj
      omega
    have hmono : Nat.fib j ≤ Nat.fib 78 := Nat.fib_mono hj'
    have : (Nat.fib j : Int) ≤ 8944394323791464 := by
      rw [h78] at hmono
      exact_mod_cast hmono
    exact le_trans this (by decide)
  · rw [fibonacciExact_eq]
    have : (80 : Int).toNat = 79 + 1 := rfl
    rw [this, List.range_succ, List.map_append, List.map_singleton, List.getLast?_append,
      List.getLast?_singleton, h79]
    rfl
  · rw [h79]
    rfl
  · intro n h0 hn
    rw [fibonacciSeries_exact n h0 hn, fibonacciExact_eq, List.map_map]
    rfl
  · intro n h80 heq
    have hk : 80 ≤ n.toNat := by omega
    obtain ⟨m, hm⟩ := Nat.exists_eq_add_of_le hk
    have h1 := fibLoop_take 80 m (.int 0) (.int 1)
    rw [← hm] at h1
    rw [fibonacciSeries] at heq
    rw [heq, fibonacciExact_eq, List.map_map, ← List.map_take, List.take_range,
      min_eq_left hk] at h1
    have hcode : (fibLoop 80 (.int 0) (.int 1))[79]? = some (.int 14472334024676220) := by
      decide
    rw [h1, List.getElem?_map, List.getElem?_range (by decide)] at hcode
    simp only [Option.map_some', Function.comp_apply, h79, Option.some.injEq,
      JsNum.int.injEq] at hcode
    exact absurd hcode (by decide)

/-- C20, on `n = 5`: the exact series is `[0, 1, 1, 2, 3]`, below the bound, and
it is the series that the code returns. -/
theorem fibonacciExact_bound_witness :
    (∀ t ∈ fibonacciExact 5, t ≤ 2 ^ 53 - 1) ∧
    fibonacciSeries 5 = (fibonacciExact 5).map JsNum.int ∧
    fibonacciExact 5 = [0, 1, 1, 2, 3] :=
  ⟨fibonacciExact_bound.1 5 (by decide) (by decide),
   fibonacciExact_bound.2.2.2.2.1 5 (by decide) (by decide), rfl⟩

end Bfhl
